import Mathlib

/-!
# Verification of the TileDB fragment-metadata subsystem

Shallow embedding of `tiledb/sm/fragment/fragment_metadata.cc` and
`tiledb/sm/array_schema/dimension.h`, together with proofs about the
embedded operations.  Machine integers (`uint64_t`, `int64_t`, `int`,
and the narrower coordinate types) are modelled as `Nat`/`Int` with
explicit reduction modulo `2 ^ w` exactly where the C++ code performs
modular arithmetic.
-/

/-- The modulus of C++ `uint64_t` arithmetic. -/
def u64Mod : Nat := 2 ^ 64

/-- C++ `uint64_t` subtraction `a - b` (wraps modulo `2 ^ 64`);
`a` and `b` are `uint64_t` values, i.e. both are `< u64Mod`. -/
def u64sub (a b : Nat) : Nat := (a + u64Mod - b % u64Mod) % u64Mod

theorem u64Mod_pos : 0 < u64Mod := by decide

theorem u64sub_of_le (a b : Nat) (hb : b ≤ a) (ha : a < u64Mod) :
    u64sub a b = a - b := by
  unfold u64sub
  have hb' : b < u64Mod := lt_of_le_of_lt hb ha
  rw [Nat.mod_eq_of_lt hb']
  have h1 : a + u64Mod - b = (a - b) + u64Mod := by omega
  rw [h1, Nat.add_mod_right, Nat.mod_eq_of_lt (by omega)]

/-! ## C1: `set_tile_offset` / `persisted_tile_size`

The slice of the `FragmentMetadata` writer state relevant to one field
`i`: the per-tile offsets vector `tile_offsets_[i]` and the running
total `file_sizes_[i]`.  `set_tile_offset` (fragment_metadata.cc,
with `tile_index_base_ = 0`) records the current file size as the
tile's offset and then bumps the file size by the step. -/
structure TileOffsetState where
  tile_offsets : List Nat
  file_sizes : Nat
deriving DecidableEq

/-- `FragmentMetadata::set_tile_offset(name, tid, step)` restricted to the
field's slice, with `tile_index_base_ = 0`:
`tile_offsets_[idx][tid] = file_sizes_[idx]; file_sizes_[idx] += step;`
(the `+=` is `uint64_t` addition). -/
def set_tile_offset (s : TileOffsetState) (tid step : Nat) : TileOffsetState :=
  { tile_offsets := s.tile_offsets.set tid s.file_sizes
    file_sizes := (s.file_sizes + step) % u64Mod }

/-- Append tiles in order: call `set_tile_offset` with consecutive tile
indices starting at `tid`, one step per tile. -/
def appendTiles : TileOffsetState → Nat → List Nat → TileOffsetState
  | s, _, [] => s
  | s, tid, st :: rest => appendTiles (set_tile_offset s tid st) (tid + 1) rest

/-- Writer initialization for one field (`FragmentMetadata::init`):
the offsets vector has `n` slots and `file_sizes_[i] = 0`. -/
def initTileOffsetState (n : Nat) : TileOffsetState :=
  { tile_offsets := List.replicate n 0, file_sizes := 0 }

/-- The state after appending tiles `0 .. n-1` with the given steps. -/
def writeFragmentOffsets (steps : List Nat) : TileOffsetState :=
  appendTiles (initTileOffsetState steps.length) 0 steps

/-- `FragmentMetadata::persisted_tile_size(name, tile_idx)` restricted to
the field's slice (the loaded-flag check is dropped here; the accessor
guards are the subject of C4):
`tile_offsets[tid+1] - tile_offsets[tid]` for all but the last tile,
`file_sizes - tile_offsets[tid]` for the last one, in `uint64_t`
arithmetic. -/
def persisted_tile_size (s : TileOffsetState) (tileNum tid : Nat) : Nat :=
  if tid ≠ tileNum - 1 then
    u64sub (s.tile_offsets.getD (tid + 1) 0) (s.tile_offsets.getD tid 0)
  else
    u64sub s.file_sizes (s.tile_offsets.getD tid 0)

theorem appendTiles_offsets_length (steps : List Nat) :
    ∀ (s : TileOffsetState) (tid : Nat),
      (appendTiles s tid steps).tile_offsets.length = s.tile_offsets.length := by
  induction steps with
  | nil => intro s tid; rfl
  | cons st rest ih =>
      intro s tid
      simp only [appendTiles, ih, set_tile_offset, List.length_set]

theorem appendTiles_file_sizes (steps : List Nat) :
    ∀ (s : TileOffsetState), s.file_sizes + steps.sum < u64Mod →
      ∀ (tid : Nat), (appendTiles s tid steps).file_sizes = s.file_sizes + steps.sum := by
  induction steps with
  | nil => intro s _ tid; simp [appendTiles]
  | cons st rest ih =>
      intro s hs tid
      simp only [List.sum_cons] at hs
      have hfs : (set_tile_offset s tid st).file_sizes = s.file_sizes + st :=
        Nat.mod_eq_of_lt (by omega)
      simp only [appendTiles]
      rw [ih (set_tile_offset s tid st) (by rw [hfs]; omega) (tid + 1), hfs,
        List.sum_cons]
      omega

theorem appendTiles_offsets_getD (steps : List Nat) :
    ∀ (s : TileOffsetState) (tid : Nat),
      tid + steps.length ≤ s.tile_offsets.length →
      s.file_sizes + steps.sum < u64Mod →
      ∀ k, (appendTiles s tid steps).tile_offsets.getD k 0 =
        if tid ≤ k ∧ k < tid + steps.length then
          s.file_sizes + (steps.take (k - tid)).sum
        else s.tile_offsets.getD k 0 := by
  induction steps with
  | nil =>
      intro s tid _ _ k
      simp only [appendTiles, List.length_nil, Nat.add_zero]
      rw [if_neg (by omega)]
  | cons st rest ih =>
      intro s tid hlen hsum k
      simp only [List.length_cons, List.sum_cons] at hlen hsum
      have hfs : (set_tile_offset s tid st).file_sizes = s.file_sizes + st :=
        Nat.mod_eq_of_lt (by omega)
      have hofs : (set_tile_offset s tid st).tile_offsets =
          s.tile_offsets.set tid s.file_sizes := rfl
      have hlen' : (tid + 1) + rest.length ≤
          (set_tile_offset s tid st).tile_offsets.length := by
        rw [hofs, List.length_set]; omega
      have hsum' : (set_tile_offset s tid st).file_sizes + rest.sum < u64Mod := by
        rw [hfs]; omega
      simp only [appendTiles]
      rw [ih _ (tid + 1) hlen' hsum' k]
      simp only [List.length_cons]
      by_cases h1 : tid + 1 ≤ k ∧ k < tid + 1 + rest.length
      · rw [if_pos h1, if_pos (by omega), hfs]
        have hk : k - tid = (k - (tid + 1)) + 1 := by omega
        rw [hk, List.take_succ_cons, List.sum_cons]
        omega
      · rw [if_neg h1, hofs]
        by_cases h2 : k = tid
        · rw [h2, if_pos (by omega)]
          have htid : tid < s.tile_offsets.length := by omega
          simp only [Nat.sub_self, List.take_zero, List.sum_nil, Nat.add_zero,
            List.getD, List.get?_eq_getElem?, List.getElem?_set_self htid,
            Option.getD_some]
        · rw [if_neg (by omega)]
          simp only [List.getD, List.get?_eq_getElem?,
            List.getElem?_set_ne (by omega : tid ≠ k)]

theorem map_getD_range (l : List Nat) :
    (List.range l.length).map (fun k => l.getD k 0) = l := by
  induction l with
  | nil => simp
  | cons a l ih =>
      rw [List.length_cons, List.range_succ_eq_map, List.map_cons, List.map_map]
      have h : ((fun k => (a :: l).getD k 0) ∘ Nat.succ) = (fun k => l.getD k 0) := by
        funext k
        simp [Function.comp, List.getD_cons_succ]
      rw [h, ih, List.getD_cons_zero]

/-- C1.  Appending tiles `0 .. n-1` in order via `set_tile_offset` with
`tile_index_base_ = 0` makes the recorded offsets the prefix sums of the
steps, makes `persisted_tile_size` recover each step, and makes
`file_sizes` the total of all persisted tile sizes. -/
theorem set_tile_offset_prefix_sums (steps : List Nat) (n : Nat)
    (hn : n = steps.length) (hpos : 0 < n) (hsum : steps.sum < u64Mod) :
    ((∀ k, k < n → (writeFragmentOffsets steps).tile_offsets.getD k 0 =
        (steps.take k).sum) ∧
      (writeFragmentOffsets steps).tile_offsets.getD 0 0 = 0) ∧
    (∀ k, k < n → persisted_tile_size (writeFragmentOffsets steps) n k =
        steps.getD k 0) ∧
    (writeFragmentOffsets steps).file_sizes = steps.sum ∧
    (writeFragmentOffsets steps).file_sizes =
      ((List.range n).map
        (fun k => persisted_tile_size (writeFragmentOffsets steps) n k)).sum := by
  have hlen0 : (initTileOffsetState steps.length).tile_offsets.length =
      steps.length := by simp [initTileOffsetState]
  have hfs0 : (initTileOffsetState steps.length).file_sizes = 0 := rfl
  have hget : ∀ k, k < n → (writeFragmentOffsets steps).tile_offsets.getD k 0 =
      (steps.take k).sum := by
    intro k hk
    unfold writeFragmentOffsets
    rw [appendTiles_offsets_getD steps _ 0 (by omega) (by rw [hfs0]; omega) k]
    rw [if_pos (by omega), hfs0]
    simp
  have hfs : (writeFragmentOffsets steps).file_sizes = steps.sum := by
    unfold writeFragmentOffsets
    rw [appendTiles_file_sizes steps _ (by rw [hfs0]; omega) 0, hfs0]
    omega
  have htake_le : ∀ k, (steps.take k).sum ≤ steps.sum := by
    intro k
    conv_rhs => rw [← List.take_append_drop k steps]
    rw [List.sum_append]
    omega
  have hsucc : ∀ k, k < steps.length →
      (steps.take (k + 1)).sum = (steps.take k).sum + steps.getD k 0 := by
    intro k hk
    rw [List.sum_take_succ steps k hk]
    simp [List.getD, List.getElem?_eq_getElem hk]
  have hper : ∀ k, k < n → persisted_tile_size (writeFragmentOffsets steps) n k =
      steps.getD k 0 := by
    intro k hk
    unfold persisted_tile_size
    by_cases hlast : k ≠ n - 1
    · rw [if_pos hlast, hget (k + 1) (by omega), hget k hk]
      rw [u64sub_of_le _ _ (by rw [hsucc k (by omega)]; omega)
        (lt_of_le_of_lt (htake_le (k + 1)) hsum)]
      rw [hsucc k (by omega)]
      omega
    · rw [if_neg hlast, hget k hk, hfs]
      push_neg at hlast
      subst hlast
      rw [u64sub_of_le _ _ (htake_le _) hsum]
      have hn1 : n - 1 < steps.length := by omega
      have := hsucc (n - 1) hn1
      have htail : (steps.take (n - 1 + 1)).sum = steps.sum := by
        have h' : n - 1 + 1 = n := by omega
        rw [h', hn, List.take_length]
      omega
  refine ⟨⟨hget, ?_⟩, hper, hfs, ?_⟩
  · rw [hget 0 hpos]; simp
  · rw [hfs]
    have hmap : (List.range n).map
        (fun k => persisted_tile_size (writeFragmentOffsets steps) n k) =
        (List.range n).map (fun k => steps.getD k 0) := by
      apply List.map_congr_left
      intro k hk
      exact hper k (List.mem_range.mp hk)
    rw [hmap, hn, map_getD_range]

/-- C1 witness: three tiles with steps `[5, 7, 3]`. -/
theorem set_tile_offset_prefix_sums_witness :
    3 = ([5, 7, 3] : List Nat).length ∧ 0 < 3 ∧ ([5, 7, 3] : List Nat).sum < u64Mod ∧
    ((∀ k, k < 3 → (writeFragmentOffsets [5, 7, 3]).tile_offsets.getD k 0 =
        (([5, 7, 3] : List Nat).take k).sum) ∧
      (writeFragmentOffsets [5, 7, 3]).tile_offsets.getD 0 0 = 0) ∧
    (∀ k, k < 3 → persisted_tile_size (writeFragmentOffsets [5, 7, 3]) 3 k =
        ([5, 7, 3] : List Nat).getD k 0) ∧
    (writeFragmentOffsets [5, 7, 3]).file_sizes = ([5, 7, 3] : List Nat).sum ∧
    (writeFragmentOffsets [5, 7, 3]).file_sizes =
      ((List.range 3).map
        (fun k => persisted_tile_size (writeFragmentOffsets [5, 7, 3]) 3 k)).sum :=
  ⟨rfl, by decide, by decide,
    set_tile_offset_prefix_sums [5, 7, 3] 3 rfl (by decide) (by decide)⟩

/-! ## C9: `convert_tile_min_max_var_sizes_to_offsets`

The slice of writer state for one field's per-tile min (or max)
metadata in the var-size case: the fixed buffer `tile_min_buffer_[idx]`
(resp. `tile_max_buffer_[idx]`) viewed as its `uint64_t` entries, and
the byte size of the var buffer `tile_min_var_buffer_[idx]`
(resp. `tile_max_var_buffer_[idx]`). -/
structure MinMaxVarState where
  buffer : List Nat
  varBufferSize : Nat
deriving DecidableEq

/-- `FragmentMetadata::set_tile_min_var_size(name, tid, size)` (and the
identical `set_tile_max_var_size`) with `tile_index_base_ = 0`: write
`size` into `uint64_t` entry `tid` of the fixed buffer. -/
def set_tile_min_var_size (s : MinMaxVarState) (tid size : Nat) : MinMaxVarState :=
  { s with buffer := s.buffer.set tid size }

/-- The fix-up loop of `convert_tile_min_max_var_sizes_to_offsets` over
one buffer: starting from `offset`, each entry is replaced by the
running offset and the entry's old value (a size) is added to the
running offset (`uint64_t` addition).  Returns the rewritten entries
and the final offset. -/
def convertSizesLoop : Nat → List Nat → List Nat × Nat
  | offset, [] => ([], offset)
  | offset, sz :: rest =>
    let r := convertSizesLoop ((offset + sz) % u64Mod) rest
    (offset :: r.1, r.2)

/-- The effect of `convert_tile_min_max_var_sizes_to_offsets` on one of
its two buffers, with `tile_index_base_ = 0` (so the loop covers every
entry): the offset starts at the var buffer's current size, every entry
is rewritten, and the var buffer is resized to the final offset. -/
def convert_var_sizes_to_offsets (s : MinMaxVarState) : MinMaxVarState :=
  { buffer := (convertSizesLoop s.varBufferSize s.buffer).1
    varBufferSize := (convertSizesLoop s.varBufferSize s.buffer).2 }

/-- `FragmentMetadata::convert_tile_min_max_var_sizes_to_offsets(name)`:
applies the same fix-up first to the min buffer pair and then to the max
buffer pair of the field. -/
def convert_tile_min_max_var_sizes_to_offsets (mins maxs : MinMaxVarState) :
    MinMaxVarState × MinMaxVarState :=
  (convert_var_sizes_to_offsets mins, convert_var_sizes_to_offsets maxs)

/-- Recording per-tile var sizes for consecutive tiles starting at `tid`. -/
def recordVarSizes : MinMaxVarState → Nat → List Nat → MinMaxVarState
  | s, _, [] => s
  | s, tid, sz :: rest => recordVarSizes (set_tile_min_var_size s tid sz) (tid + 1) rest

theorem recordVarSizes_spec (sizes : List Nat) :
    ∀ (pre : List Nat) (v : Nat),
      (recordVarSizes ⟨pre ++ List.replicate sizes.length 0, v⟩
        pre.length sizes) = ⟨pre ++ sizes, v⟩ := by
  induction sizes with
  | nil => intro pre v; simp [recordVarSizes]
  | cons sz rest ih =>
      intro pre v
      simp only [recordVarSizes, set_tile_min_var_size, List.length_cons,
        List.replicate_succ]
      have hset : (pre ++ 0 :: List.replicate rest.length 0).set pre.length sz =
          (pre ++ [sz]) ++ List.replicate rest.length 0 := by
        rw [List.set_append_right _ _ (Nat.le_refl _)]
        simp
      rw [hset]
      have hlen : pre.length + 1 = (pre ++ [sz]).length := by simp
      rw [hlen, ih (pre ++ [sz]) v]
      simp

theorem convertSizesLoop_snd (l : List Nat) :
    ∀ off, off + l.sum < u64Mod → (convertSizesLoop off l).2 = off + l.sum := by
  induction l with
  | nil => intro off _; simp [convertSizesLoop]
  | cons sz rest ih =>
      intro off h
      simp only [List.sum_cons] at h
      have hm : (off + sz) % u64Mod = off + sz := Nat.mod_eq_of_lt (by omega)
      simp only [convertSizesLoop]
      rw [ih _ (by rw [hm]; omega), hm, List.sum_cons]
      omega

theorem convertSizesLoop_fst_length (l : List Nat) :
    ∀ off, (convertSizesLoop off l).1.length = l.length := by
  induction l with
  | nil => intro off; rfl
  | cons sz rest ih =>
      intro off
      simp only [convertSizesLoop, List.length_cons, ih]

theorem convertSizesLoop_fst_getD (l : List Nat) :
    ∀ off, off + l.sum < u64Mod →
      ∀ t, t < l.length →
        (convertSizesLoop off l).1.getD t 0 = off + (l.take t).sum := by
  induction l with
  | nil => intro off _ t ht; simp at ht
  | cons sz rest ih =>
      intro off h t ht
      simp only [List.sum_cons] at h
      have hm : (off + sz) % u64Mod = off + sz := Nat.mod_eq_of_lt (by omega)
      simp only [convertSizesLoop]
      cases t with
      | zero => simp
      | succ t' =>
          simp only [List.getD_cons_succ, List.take_succ_cons, List.sum_cons]
          rw [ih _ (by rw [hm]; omega) t' (by simpa using ht), hm]
          omega

/-- C9.  After recording var sizes for tiles `0 .. n-1` (with
`tile_index_base_ = 0` and initially empty var buffers), a single call
to `convert_tile_min_max_var_sizes_to_offsets` turns both the min and
the max buffer into the exclusive prefix sums of the recorded sizes and
resizes each var buffer to the total of all sizes. -/
theorem convert_tile_min_max_var_sizes_to_offsets_prefix_sums
    (minSizes maxSizes : List Nat) (n : Nat)
    (hmn : n = minSizes.length) (hxn : n = maxSizes.length)
    (hmsum : minSizes.sum < u64Mod) (hxsum : maxSizes.sum < u64Mod) :
    (let r := convert_tile_min_max_var_sizes_to_offsets
        (recordVarSizes ⟨List.replicate n 0, 0⟩ 0 minSizes)
        (recordVarSizes ⟨List.replicate n 0, 0⟩ 0 maxSizes);
      (∀ t, t < n → r.1.buffer.getD t 0 = (minSizes.take t).sum) ∧
      (∀ t, t < n → r.2.buffer.getD t 0 = (maxSizes.take t).sum) ∧
      r.1.buffer.length = n ∧ r.2.buffer.length = n ∧
      r.1.varBufferSize = minSizes.sum ∧ r.2.varBufferSize = maxSizes.sum) := by
  have hrec : ∀ (sizes : List Nat),
      recordVarSizes ⟨List.replicate sizes.length 0, 0⟩ 0 sizes =
        ⟨sizes, 0⟩ := by
    intro sizes
    have := recordVarSizes_spec sizes [] 0
    simpa using this
  subst hmn
  have hxlen : maxSizes.length = minSizes.length := hxn.symm
  constructor
  · intro t ht
    rw [hrec minSizes]
    simp only [convert_tile_min_max_var_sizes_to_offsets,
      convert_var_sizes_to_offsets]
    rw [convertSizesLoop_fst_getD minSizes 0 (by omega) t ht]
    omega
  constructor
  · intro t ht
    rw [← hxlen, hrec maxSizes]
    simp only [convert_tile_min_max_var_sizes_to_offsets,
      convert_var_sizes_to_offsets]
    rw [convertSizesLoop_fst_getD maxSizes 0 (by omega) t (by omega)]
    omega
  refine ⟨?_, ?_, ?_, ?_⟩
  · rw [hrec minSizes]
    simpa [convert_tile_min_max_var_sizes_to_offsets,
      convert_var_sizes_to_offsets] using convertSizesLoop_fst_length minSizes 0
  · rw [← hxlen, hrec maxSizes]
    simp only [convert_tile_min_max_var_sizes_to_offsets,
      convert_var_sizes_to_offsets]
    rw [convertSizesLoop_fst_length maxSizes 0]
  · rw [hrec minSizes]
    simp only [convert_tile_min_max_var_sizes_to_offsets,
      convert_var_sizes_to_offsets]
    rw [convertSizesLoop_snd minSizes 0 (by omega)]
    omega
  · rw [← hxlen, hrec maxSizes]
    simp only [convert_tile_min_max_var_sizes_to_offsets,
      convert_var_sizes_to_offsets]
    rw [convertSizesLoop_snd maxSizes 0 (by omega)]
    omega

/-- C9 witness: three tiles with min sizes `[1, 2, 3]` and max sizes
`[4, 0, 6]`. -/
theorem convert_tile_min_max_var_sizes_to_offsets_prefix_sums_witness :
    3 = ([1, 2, 3] : List Nat).length ∧ 3 = ([4, 0, 6] : List Nat).length ∧
    ([1, 2, 3] : List Nat).sum < u64Mod ∧ ([4, 0, 6] : List Nat).sum < u64Mod ∧
    (let r := convert_tile_min_max_var_sizes_to_offsets
        (recordVarSizes ⟨List.replicate 3 0, 0⟩ 0 [1, 2, 3])
        (recordVarSizes ⟨List.replicate 3 0, 0⟩ 0 [4, 0, 6]);
      (∀ t, t < 3 → r.1.buffer.getD t 0 = (([1, 2, 3] : List Nat).take t).sum) ∧
      (∀ t, t < 3 → r.2.buffer.getD t 0 = (([4, 0, 6] : List Nat).take t).sum) ∧
      r.1.buffer.length = 3 ∧ r.2.buffer.length = 3 ∧
      r.1.varBufferSize = ([1, 2, 3] : List Nat).sum ∧
      r.2.varBufferSize = ([4, 0, 6] : List Nat).sum) :=
  ⟨rfl, rfl, by decide, by decide,
    convert_tile_min_max_var_sizes_to_offsets_prefix_sums [1, 2, 3] [4, 0, 6] 3
      rfl rfl (by decide) (by decide)⟩

/-! ## C6: fragment-level null count

`compute_fragment_min_max_sum_null_count` computes
`fragment_null_counts_[idx] = std::accumulate(tile_null_counts_[idx].begin(),
tile_null_counts_[idx].end(), 0)`.  The initial value is the literal `0`
of type `int`, so the accumulator of `std::accumulate` has type `int`:
each step adds a `uint64_t` element to the `int` accumulator (the
addition is performed in `uint64_t` after the usual arithmetic
conversions) and converts the result back to `int` (modular conversion
to a 32-bit two's-complement value).  The final `int` is then converted
back to `uint64_t` when stored into `fragment_null_counts_`, which is
what `get_null_count` returns for a nullable field. -/

/-- C++ conversion of a `uint64_t` value to `int` (32-bit,
two's-complement, modular). -/
def cppIntOfU64 (u : Nat) : Int :=
  if u % 2 ^ 32 < 2 ^ 31 then ((u % 2 ^ 32 : Nat) : Int)
  else ((u % 2 ^ 32 : Nat) : Int) - 2 ^ 32

/-- C++ conversion of an `int` value to `uint64_t` (modular). -/
def u64OfCppInt (i : Int) : Nat := (i % (2 ^ 64 : Int)).toNat

/-- One step of the `std::accumulate(..., 0)` call: `acc + nc` with
`acc : int` and `nc : uint64_t`, performed in `uint64_t` and converted
back to the `int` accumulator. -/
def accumulateNullCountStep (acc : Int) (nc : Nat) : Int :=
  cppIntOfU64 ((u64OfCppInt acc + nc % u64Mod) % u64Mod)

/-- The fragment-level null count actually computed and stored by
`compute_fragment_min_max_sum_null_count` (and returned by
`get_null_count` once loaded). -/
def computeFragmentNullCount (tileNullCounts : List Nat) : Nat :=
  u64OfCppInt (tileNullCounts.foldl accumulateNullCountStep 0)

/-- C6.  The claim says `get_null_count` equals the exact unsigned
64-bit sum of the per-tile null counts for any values up to `2^64 - 1`.
The `int` accumulator of `std::accumulate(..., 0)` wraps: a single tile
with null count `2^31` yields `2^64 - 2^31`, not `2^31` (small values,
as in scenario S3, do come out exactly). -/
theorem fragment_null_count_int_accumulator_wraps :
    computeFragmentNullCount [2 ^ 31] = 2 ^ 64 - 2 ^ 31 ∧
    ([2 ^ 31] : List Nat).sum = 2 ^ 31 ∧
    computeFragmentNullCount [2 ^ 31] ≠ ([2 ^ 31] : List Nat).sum ∧
    computeFragmentNullCount [100, 0] = ([100, 0] : List Nat).sum := by
  refine ⟨?_, ?_, ?_, ?_⟩ <;> decide

/-! ## C8: `Dimension::tile_coord_high` (integral specialization)

`dimension.h`:
```
typedef typename std::make_unsigned<T>::type unsigned_t;
if ((unsigned_t)tile_extent == std::numeric_limits<unsigned_t>::max())
  return std::numeric_limits<T>::max() -
         (domain_low == std::numeric_limits<T>::min());
return (unsigned_t)domain_low + ++tile_num * (unsigned_t)tile_extent - 1;
```
`tile_num` is `uint64_t`; in the last line the operands are promoted to
`uint64_t`, so the whole expression is evaluated modulo `2 ^ 64` and the
result is converted (modularly) to the return type `T`. -/

/-- An integer coordinate type `T ∈ {I8,U8,I16,U16,I32,U32,I64,U64}`:
bit width and signedness. -/
structure IntType where
  width : Nat
  signed : Bool
deriving DecidableEq

/-- `std::numeric_limits<T>::max()`. -/
def IntType.tmax (T : IntType) : Int :=
  if T.signed then 2 ^ (T.width - 1) - 1 else 2 ^ T.width - 1

/-- `std::numeric_limits<T>::min()`. -/
def IntType.tmin (T : IntType) : Int :=
  if T.signed then -(2 ^ (T.width - 1)) else 0

/-- `(unsigned_t)v`: modular conversion of a `T` value to the matching
unsigned type. -/
def IntType.toUnsigned (T : IntType) (v : Int) : Nat :=
  (v % ((2 : Int) ^ T.width)).toNat

/-- Modular conversion of an unsigned value back to `T`. -/
def IntType.ofUnsigned (T : IntType) (u : Nat) : Int :=
  if T.signed ∧ ¬((u % 2 ^ T.width : Nat) : Int) < 2 ^ (T.width - 1) then
    ((u % 2 ^ T.width : Nat) : Int) - 2 ^ T.width
  else ((u % 2 ^ T.width : Nat) : Int)

/-- The eight integral coordinate types named by the claim. -/
def coordIntTypes : List IntType :=
  [⟨8, true⟩, ⟨8, false⟩, ⟨16, true⟩, ⟨16, false⟩,
   ⟨32, true⟩, ⟨32, false⟩, ⟨64, true⟩, ⟨64, false⟩]

/-- `Dimension::tile_coord_high(tile_num, domain_low, tile_extent)` for
integral `T` (see the header comment above this section). -/
def tile_coord_high (T : IntType) (tile_num : Nat) (domain_low tile_extent : Int) : Int :=
  if T.toUnsigned tile_extent = 2 ^ T.width - 1 then
    T.tmax - (if domain_low = T.tmin then 1 else 0)
  else
    T.ofUnsigned ((T.toUnsigned domain_low +
      ((tile_num + 1) % u64Mod) * T.toUnsigned tile_extent + (u64Mod - 1)) % u64Mod)

/-- What C8 claims `tile_coord_high` computes: saturate at `T::MAX`
exactly when the extent equals `T::MAX - low`, otherwise
`low + (k+1)*extent - 1` in the matching unsigned width. -/
def tile_coord_high_claimed (T : IntType) (tile_num : Nat)
    (domain_low tile_extent : Int) : Int :=
  if tile_extent = T.tmax - domain_low then T.tmax
  else
    T.ofUnsigned ((T.toUnsigned domain_low +
      (tile_num + 1) * T.toUnsigned tile_extent + (2 ^ T.width - 1)) % 2 ^ T.width)

/-- C8 counterexample.  For `T = U8`, `domain_low = 10`,
`tile_extent = 245 = T::MAX - low` and `tile_index 0`, the claim says
the result saturates to `255`; the code has no special case here (its
guard compares the extent against the unsigned maximum `255`, not
against `T::MAX - low`) and returns `10 + 245 - 1 = 254`. -/
theorem tile_coord_high_no_tmax_minus_low_saturation :
    (245 : Int) = (⟨8, false⟩ : IntType).tmax - 10 ∧
    tile_coord_high ⟨8, false⟩ 0 10 245 = 254 ∧
    tile_coord_high_claimed ⟨8, false⟩ 0 10 245 = 255 ∧
    tile_coord_high ⟨8, false⟩ 0 10 245 ≠
      tile_coord_high_claimed ⟨8, false⟩ 0 10 245 := by
  refine ⟨?_, ?_, ?_, ?_⟩ <;> decide

theorem IntType.ofUnsigned_congr (T : IntType) {u v : Nat}
    (h : u % 2 ^ T.width = v % 2 ^ T.width) : T.ofUnsigned u = T.ofUnsigned v := by
  unfold IntType.ofUnsigned
  rw [h]

/-- C8 as amended.  For every coordinate type `T`, tile index and
`T`-values `low` and `ext`, the code computes
`low + (k+1)*ext - 1` modulo `2 ^ width` (converted back to `T`),
except that when the extent cast to the unsigned width equals
`2 ^ width - 1` it returns `T::MAX`, or `T::MAX - 1` when
`low = T::MIN`. -/
theorem tile_coord_high_amended (T : IntType) (hT : T ∈ coordIntTypes)
    (k : Nat) (low ext : Int) :
    tile_coord_high T k low ext =
      if T.toUnsigned ext = 2 ^ T.width - 1 then
        (if low = T.tmin then T.tmax - 1 else T.tmax)
      else
        T.ofUnsigned ((T.toUnsigned low + (k + 1) * T.toUnsigned ext +
          (2 ^ T.width - 1)) % 2 ^ T.width) := by
  have hw : T.width ≤ 64 := by
    simp only [coordIntTypes, List.mem_cons, List.not_mem_nil, or_false] at hT
    rcases hT with rfl | rfl | rfl | rfl | rfl | rfl | rfl | rfl <;> decide
  unfold tile_coord_high
  by_cases hext : T.toUnsigned ext = 2 ^ T.width - 1
  · rw [if_pos hext, if_pos hext]
    by_cases hlow : low = T.tmin
    · rw [if_pos hlow, if_pos hlow]
    · rw [if_neg hlow, if_neg hlow]
      simp
  · rw [if_neg hext, if_neg hext]
    apply T.ofUnsigned_congr
    have hdvd : (2 : Nat) ^ T.width ∣ 2 ^ 64 := pow_dvd_pow 2 hw
    have hu : u64Mod = 2 ^ 64 := rfl
    rw [hu, Nat.mod_mod_of_dvd _ hdvd, Nat.mod_mod_of_dvd _ dvd_rfl]
    have h1 : (k + 1) % 2 ^ 64 ≡ k + 1 [MOD 2 ^ T.width] :=
      (Nat.mod_modEq (k + 1) (2 ^ 64)).of_dvd hdvd
    have hle : (2 : Nat) ^ T.width ≤ 2 ^ 64 := Nat.pow_le_pow_right (by norm_num) hw
    have hpos : (1 : Nat) ≤ 2 ^ T.width := Nat.one_le_two_pow
    have h2 : (2 : Nat) ^ 64 - 1 ≡ 2 ^ T.width - 1 [MOD 2 ^ T.width] := by
      have hd : (2 : Nat) ^ T.width ∣ (2 ^ 64 - 1) - (2 ^ T.width - 1) := by
        have heq : (2 : Nat) ^ 64 - 1 - (2 ^ T.width - 1) = 2 ^ 64 - 2 ^ T.width := by
          omega
        rw [heq]
        exact Nat.dvd_sub' hdvd dvd_rfl
      exact ((Nat.modEq_iff_dvd' (by omega)).mpr hd).symm
    exact ((h1.mul_right (T.toUnsigned ext)).add_left (T.toUnsigned low)).add h2

/-- C8 amended-claim witness: `T = I16`, tile index `2`, `low = -5`,
`ext = 7`. -/
theorem tile_coord_high_amended_witness :
    (⟨16, true⟩ : IntType) ∈ coordIntTypes ∧
    tile_coord_high ⟨16, true⟩ 2 (-5) 7 =
      (if (⟨16, true⟩ : IntType).toUnsigned 7 = 2 ^ (⟨16, true⟩ : IntType).width - 1 then
        (if (-5 : Int) = (⟨16, true⟩ : IntType).tmin then (⟨16, true⟩ : IntType).tmax - 1
         else (⟨16, true⟩ : IntType).tmax)
      else
        (⟨16, true⟩ : IntType).ofUnsigned (((⟨16, true⟩ : IntType).toUnsigned (-5) +
          (2 + 1) * (⟨16, true⟩ : IntType).toUnsigned 7 +
          (2 ^ (⟨16, true⟩ : IntType).width - 1)) % 2 ^ (⟨16, true⟩ : IntType).width)) :=
  ⟨by decide, tile_coord_high_amended ⟨16, true⟩ (by decide) 2 (-5) 7⟩

/-! ## C7: the footer-size trailer

`write_footer_to_file` writes the footer tile and then, `if
(!array_schema_->domain().all_dims_fixed() || version_ >= 10)`, appends
the footer size as a `uint64_t` (the on-disk byte order is
little-endian).  `get_footer_offset_and_size` branches on
`all_dims_fixed` and the fragment format version parsed from the URI
(which equals `version_` for a fragment written by `store`): for fixed
domains below version 5 / 7 / 10 it uses the corresponding computed
footer size, otherwise it reads the size from the last 8 bytes of the
metadata file. -/

/-- Little-endian encoding of a `uint64_t` as 8 bytes. -/
def le64 (x : Nat) : List Nat :=
  [x % 2 ^ 8, x / 2 ^ 8 % 2 ^ 8, x / 2 ^ 16 % 2 ^ 8, x / 2 ^ 24 % 2 ^ 8,
   x / 2 ^ 32 % 2 ^ 8, x / 2 ^ 40 % 2 ^ 8, x / 2 ^ 48 % 2 ^ 8, x / 2 ^ 56 % 2 ^ 8]

/-- Decoding a little-endian `uint64_t` from 8 bytes. -/
def decodeLe64 (bs : List Nat) : Nat :=
  bs.getD 0 0 + bs.getD 1 0 * 2 ^ 8 + bs.getD 2 0 * 2 ^ 16 + bs.getD 3 0 * 2 ^ 24 +
  bs.getD 4 0 * 2 ^ 32 + bs.getD 5 0 * 2 ^ 40 + bs.getD 6 0 * 2 ^ 48 + bs.getD 7 0 * 2 ^ 56

theorem decodeLe64_le64 (x : Nat) (hx : x < u64Mod) : decodeLe64 (le64 x) = x := by
  unfold u64Mod at hx
  simp only [decodeLe64, le64, List.getD_cons_zero, List.getD_cons_succ]
  omega

/-- The schema-derived quantities the footer-size functions read. -/
structure FooterSchema where
  attributeNum : Nat
  dimNum : Nat
  coordSizes : List Nat
  nonEmptyDomainSizes : List Nat
  dimVarSize : List Bool
  allDimsFixed : Bool
  hasTimestamps : Bool
  hasDeleteMeta : Bool

/-- Modelled from the spec: `num_dims_and_attrs()` is declared in
fragment_metadata.h, which is not among the excerpted sources.  §4.5.1:
the indexed fields are the attributes, the `coords` pseudo-field, the
dimensions, and the optional timestamps / delete_ts+delete_idx fields. -/
def num_dims_and_attrs (sch : FooterSchema) : Nat :=
  sch.attributeNum + 1 + sch.dimNum + (if sch.hasTimestamps then 1 else 0) +
    (if sch.hasDeleteMeta then 2 else 0)

/-- `FragmentMetadata::footer_size_v3_v4`. -/
def footer_size_v3_v4 (sch : FooterSchema) : Nat :=
  let domain_size := 2 * sch.dimNum * sch.coordSizes.getD 0 0
  4 + 1 + 1 + domain_size + 8 + 8 + (sch.attributeNum + 1) * 8 +
    sch.attributeNum * 8 + 8 + (sch.attributeNum + 1) * 8 +
    sch.attributeNum * 8 + sch.attributeNum * 8

/-- The non-empty-domain byte size computed by `footer_size_v5_v6` and
`footer_size_v7_v9`. -/
def footerDomainSize (sch : FooterSchema) : Nat :=
  if sch.nonEmptyDomainSizes.isEmpty then
    ((List.range sch.dimNum).map (fun d => 2 * sch.coordSizes.getD d 0)).sum
  else
    ((List.range sch.dimNum).map (fun d =>
      sch.nonEmptyDomainSizes.getD d 0 +
        (if sch.dimVarSize.getD d false then 2 * 8 else 0))).sum

/-- `FragmentMetadata::footer_size_v5_v6`. -/
def footer_size_v5_v6 (sch : FooterSchema) : Nat :=
  let num := num_dims_and_attrs sch
  4 + 1 + 1 + footerDomainSize sch + 8 + 8 + num * 8 + num * 8 + 8 +
    num * 8 + num * 8 + num * 8

/-- `FragmentMetadata::footer_size_v7_v9`. -/
def footer_size_v7_v9 (sch : FooterSchema) : Nat :=
  let num := num_dims_and_attrs sch
  4 + 1 + 1 + footerDomainSize sch + 8 + 8 + num * 8 + num * 8 + num * 8 + 8 +
    num * 8 + num * 8 + num * 8 + num * 8

/-- `FragmentMetadata::write_footer_to_file`: the bytes appended to the
metadata file — the footer tile, then, when some dimension is var-sized
or `version_ ≥ 10`, the 8-byte little-endian footer size. -/
def write_footer_to_file (sch : FooterSchema) (version : Nat)
    (footerBytes : List Nat) : List Nat :=
  footerBytes ++
    (if ¬sch.allDimsFixed ∨ 10 ≤ version then le64 footerBytes.length else [])

/-- `FragmentMetadata::get_footer_offset_and_size`, returning
`(offset, size)`; `file` is the whole metadata file, so
`meta_file_size_ = file.length`. -/
def get_footer_offset_and_size (sch : FooterSchema) (fragmentFormatVersion : Nat)
    (file : List Nat) : Nat × Nat :=
  let metaFileSize := file.length
  if sch.allDimsFixed ∧ fragmentFormatVersion < 5 then
    (metaFileSize - footer_size_v3_v4 sch, footer_size_v3_v4 sch)
  else if sch.allDimsFixed ∧ fragmentFormatVersion < 7 then
    (metaFileSize - footer_size_v5_v6 sch, footer_size_v5_v6 sch)
  else if sch.allDimsFixed ∧ fragmentFormatVersion < 10 then
    (metaFileSize - footer_size_v7_v9 sch, footer_size_v7_v9 sch)
  else
    let size := decodeLe64 (file.drop (metaFileSize - 8))
    (metaFileSize - size - 8, size)

/-- C7.  `store` appends the 8-byte little-endian footer-size trailer
exactly when some dimension is var-sized or the version is at least 10;
under the same condition `load` finds the footer through the trailer in
the last 8 bytes (offset `meta_file_size - size - 8`), and otherwise it
uses the version-specific computed footer size. -/
theorem footer_trailer_roundtrip (sch : FooterSchema) (version : Nat)
    (preBytes footerBytes : List Nat) (hlen : footerBytes.length < u64Mod) :
    (write_footer_to_file sch version footerBytes =
        footerBytes ++ le64 footerBytes.length ↔
      (¬sch.allDimsFixed ∨ 10 ≤ version)) ∧
    (write_footer_to_file sch version footerBytes = footerBytes ↔
      ¬(¬sch.allDimsFixed ∨ 10 ≤ version)) ∧
    ((¬sch.allDimsFixed ∨ 10 ≤ version) →
      get_footer_offset_and_size sch version
        (preBytes ++ write_footer_to_file sch version footerBytes) =
        (preBytes.length, footerBytes.length)) ∧
    (¬(¬sch.allDimsFixed ∨ 10 ≤ version) →
      get_footer_offset_and_size sch version
        (preBytes ++ write_footer_to_file sch version footerBytes) =
        ((preBytes ++ footerBytes).length -
          (if version < 5 then footer_size_v3_v4 sch
           else if version < 7 then footer_size_v5_v6 sch
           else footer_size_v7_v9 sch),
         if version < 5 then footer_size_v3_v4 sch
         else if version < 7 then footer_size_v5_v6 sch
         else footer_size_v7_v9 sch)) := by
  refine ⟨?_, ?_, ?_, ?_⟩
  · constructor
    · intro h
      by_contra hc
      rw [write_footer_to_file, if_neg hc, List.append_nil] at h
      have := congrArg List.length h
      simp [le64] at this
    · intro h
      rw [write_footer_to_file, if_pos h]
  · constructor
    · intro h
      by_contra hc
      rw [write_footer_to_file, if_pos hc] at h
      have := congrArg List.length h
      simp [le64] at this
    · intro h
      rw [write_footer_to_file, if_neg h, List.append_nil]
  · intro h
    have hfx : ¬(sch.allDimsFixed = true ∧ version < 10) := by
      rcases h with h | h
      · intro hc; exact h hc.1
      · intro hc; omega
    rw [write_footer_to_file, if_pos h]
    unfold get_footer_offset_and_size
    have hn5 : ¬(sch.allDimsFixed = true ∧ version < 5) := by
      intro hc
      rcases h with h' | h'
      · exact h' hc.1
      · omega
    have hn7 : ¬(sch.allDimsFixed = true ∧ version < 7) := by
      intro hc
      rcases h with h' | h'
      · exact h' hc.1
      · omega
    have hn10 : ¬(sch.allDimsFixed = true ∧ version < 10) := by
      intro hc
      rcases h with h' | h'
      · exact h' hc.1
      · omega
    rw [if_neg hn5, if_neg hn7, if_neg hn10]
    have hassoc : preBytes ++ (footerBytes ++ le64 footerBytes.length) =
        (preBytes ++ footerBytes) ++ le64 footerBytes.length := by
      rw [List.append_assoc]
    have hlen8 : (le64 footerBytes.length).length = 8 := by simp [le64]
    have hflen : (preBytes ++ (footerBytes ++ le64 footerBytes.length)).length =
        preBytes.length + footerBytes.length + 8 := by
      simp [hlen8]
      omega
    have hdrop : (preBytes ++ (footerBytes ++ le64 footerBytes.length)).drop
        (preBytes.length + footerBytes.length + 8 - 8) = le64 footerBytes.length := by
      rw [hassoc]
      have : preBytes.length + footerBytes.length + 8 - 8 =
          (preBytes ++ footerBytes).length := by simp
      rw [this, List.drop_left]
    simp only [hflen, hdrop, decodeLe64_le64 footerBytes.length hlen]
    congr 1
    omega
  · intro h
    have hfx : sch.allDimsFixed = true ∧ version < 10 := by
      push_neg at h
      exact ⟨by simpa using h.1, by omega⟩
    rw [write_footer_to_file, if_neg h, List.append_nil]
    unfold get_footer_offset_and_size
    by_cases h5 : version < 5
    · rw [if_pos ⟨hfx.1, h5⟩, if_pos h5]
    · rw [if_neg (fun hc => h5 hc.2)]
      by_cases h7 : version < 7
      · rw [if_pos ⟨hfx.1, h7⟩, if_neg h5, if_pos h7]
      · rw [if_neg (fun hc => h7 hc.2), if_pos ⟨hfx.1, hfx.2⟩, if_neg h5, if_neg h7]

/-- C7 witness: a one-attribute, one-fixed-dimension schema at version
11 (trailer present) applied to concrete bytes. -/
theorem footer_trailer_roundtrip_witness :
    ([9, 9, 9] : List Nat).length < u64Mod ∧
    (let sch : FooterSchema := ⟨1, 1, [4], [8], [false], true, false, false⟩;
     (write_footer_to_file sch 11 [9, 9, 9] =
        [9, 9, 9] ++ le64 ([9, 9, 9] : List Nat).length ↔
      (¬sch.allDimsFixed ∨ 10 ≤ 11)) ∧
    (write_footer_to_file sch 11 [9, 9, 9] = [9, 9, 9] ↔
      ¬(¬sch.allDimsFixed ∨ 10 ≤ 11)) ∧
    ((¬sch.allDimsFixed ∨ 10 ≤ 11) →
      get_footer_offset_and_size sch 11
        ([1, 2] ++ write_footer_to_file sch 11 [9, 9, 9]) =
        (([1, 2] : List Nat).length, ([9, 9, 9] : List Nat).length)) ∧
    (¬(¬sch.allDimsFixed ∨ 10 ≤ 11) →
      get_footer_offset_and_size sch 11
        ([1, 2] ++ write_footer_to_file sch 11 [9, 9, 9]) =
        ((([1, 2] : List Nat) ++ [9, 9, 9]).length -
          (if 11 < 5 then footer_size_v3_v4 sch
           else if 11 < 7 then footer_size_v5_v6 sch
           else footer_size_v7_v9 sch),
         if 11 < 5 then footer_size_v3_v4 sch
         else if 11 < 7 then footer_size_v5_v6 sch
         else footer_size_v7_v9 sch))) :=
  ⟨by decide,
    footer_trailer_roundtrip ⟨1, 1, [4], [8], [false], true, false, false⟩ 11
      [1, 2] [9, 9, 9] (by decide)⟩

/-! ## C5: `compute_fragment_sum` saturation

The three explicit specializations in fragment_metadata.cc.  Tiles are
given as `(tile sum, null count, cell count)` triples; the third
component is the value `cell_num(t)` for the tile.  The `double`
specialization is embedded over `ℚ` (exact arithmetic idealization of
IEEE double; `std::numeric_limits<double>::max()` is the parameter
`dmax` and `lowest()` is `-dmax`); its branch structure mirrors the
source exactly. -/

def int64Max : Int := 2 ^ 63 - 1
def int64Min : Int := -(2 ^ 63)
def uint64Max : Nat := 2 ^ 64 - 1

/-- The per-tile sums of the tiles that are not entirely null, i.e. the
values the rollup is supposed to accumulate. -/
def includedTileSums {α : Type} : List (α × Nat × Nat) → Bool → List α
  | [], _ => []
  | (v, nc, cc) :: rest, nullable =>
    if nullable ∧ nc = cc then includedTileSums rest nullable
    else v :: includedTileSums rest nullable

/-- `compute_fragment_sum<int64_t>`: skip entirely-null tiles; on a
positive (negative) overflow store `int64_t` max (min) and `break`. -/
def compute_fragment_sum_int64 : Int → List (Int × Nat × Nat) → Bool → Int
  | sum, [], _ => sum
  | sum, (v, nc, cc) :: rest, nullable =>
    if nullable ∧ nc = cc then compute_fragment_sum_int64 sum rest nullable
    else if 0 < sum ∧ 0 < v ∧ int64Max - v < sum then int64Max
    else if sum < 0 ∧ v < 0 ∧ sum < int64Min - v then int64Min
    else compute_fragment_sum_int64 (sum + v) rest nullable

/-- `compute_fragment_sum<uint64_t>`: skip entirely-null tiles; on
overflow store `uint64_t` max and `break` (`+=` is `uint64_t`
addition). -/
def compute_fragment_sum_uint64 : Nat → List (Nat × Nat × Nat) → Bool → Nat
  | sum, [], _ => sum
  | sum, (v, nc, cc) :: rest, nullable =>
    if nullable ∧ nc = cc then compute_fragment_sum_uint64 sum rest nullable
    else if uint64Max - v < sum then uint64Max
    else compute_fragment_sum_uint64 ((sum + v) % u64Mod) rest nullable

/-- `compute_fragment_sum<double>` over `ℚ`: skip entirely-null tiles;
when the signs agree (`(sum_data < 0.0) == (values[t] < 0.0)`) and
`abs(sum) > max - abs(v)`, store `lowest()`/`max()` and `break`. -/
def compute_fragment_sum_double (dmax : ℚ) : ℚ → List (ℚ × Nat × Nat) → Bool → ℚ
  | sum, [], _ => sum
  | sum, (v, nc, cc) :: rest, nullable =>
    if nullable ∧ nc = cc then compute_fragment_sum_double dmax sum rest nullable
    else if ((sum < 0) ↔ (v < 0)) ∧ dmax - |v| < |sum| then
      (if sum < 0 then -dmax else dmax)
    else compute_fragment_sum_double dmax (sum + v) rest nullable

theorem compute_fragment_sum_int64_exact_or_limit (tiles : List (Int × Nat × Nat)) :
    ∀ (sum : Int) (nullable : Bool),
      compute_fragment_sum_int64 sum tiles nullable =
          sum + (includedTileSums tiles nullable).sum ∨
      compute_fragment_sum_int64 sum tiles nullable = int64Max ∨
      compute_fragment_sum_int64 sum tiles nullable = int64Min := by
  induction tiles with
  | nil =>
      intro sum nullable
      left
      simp [compute_fragment_sum_int64, includedTileSums]
  | cons t rest ih =>
      intro sum nullable
      obtain ⟨v, nc, cc⟩ := t
      simp only [compute_fragment_sum_int64, includedTileSums]
      by_cases h0 : nullable ∧ nc = cc
      · rw [if_pos h0, if_pos h0]
        exact ih sum nullable
      · rw [if_neg h0, if_neg h0]
        by_cases h1 : 0 < sum ∧ 0 < v ∧ int64Max - v < sum
        · rw [if_pos h1]
          right; left; rfl
        · rw [if_neg h1]
          by_cases h2 : sum < 0 ∧ v < 0 ∧ sum < int64Min - v
          · rw [if_pos h2]
            right; right; rfl
          · rw [if_neg h2]
            rcases ih (sum + v) nullable with h | h | h
            · left
              rw [h, List.sum_cons]
              ring
            · right; left; exact h
            · right; right; exact h

theorem compute_fragment_sum_int64_prefix_exact (tiles : List (Int × Nat × Nat)) :
    ∀ (sum : Int) (nullable : Bool),
      (∀ i, int64Min ≤ sum + ((includedTileSums tiles nullable).take i).sum ∧
        sum + ((includedTileSums tiles nullable).take i).sum ≤ int64Max) →
      compute_fragment_sum_int64 sum tiles nullable =
        sum + (includedTileSums tiles nullable).sum := by
  induction tiles with
  | nil =>
      intro sum nullable _
      simp [compute_fragment_sum_int64, includedTileSums]
  | cons t rest ih =>
      intro sum nullable hpre
      obtain ⟨v, nc, cc⟩ := t
      by_cases h0 : nullable ∧ nc = cc
      · have hInc : includedTileSums ((v, nc, cc) :: rest) nullable =
            includedTileSums rest nullable := by
          simp only [includedTileSums]
          rw [if_pos h0]
        rw [hInc] at hpre
        simp only [compute_fragment_sum_int64]
        rw [if_pos h0, hInc]
        exact ih sum nullable hpre
      · have hInc : includedTileSums ((v, nc, cc) :: rest) nullable =
            v :: includedTileSums rest nullable := by
          simp only [includedTileSums]
          rw [if_neg h0]
        rw [hInc] at hpre
        have h1v := hpre 1
        simp only [List.take_succ_cons, List.take_zero, List.sum_cons,
          List.sum_nil, add_zero] at h1v
        simp only [compute_fragment_sum_int64]
        rw [if_neg h0,
          if_neg (by intro hc; have := h1v.2; have := hc.2.2; linarith),
          if_neg (by intro hc; have := h1v.1; have := hc.2.2; linarith)]
        have hpre' : ∀ i,
            int64Min ≤ (sum + v) + ((includedTileSums rest nullable).take i).sum ∧
            (sum + v) + ((includedTileSums rest nullable).take i).sum ≤ int64Max := by
          intro i
          have := hpre (i + 1)
          simp only [List.take_succ_cons, List.sum_cons] at this
          constructor <;> linarith [this.1, this.2]
        rw [ih (sum + v) nullable hpre', hInc, List.sum_cons]
        ring

theorem compute_fragment_sum_uint64_exact_or_max (tiles : List (Nat × Nat × Nat)) :
    ∀ (sum : Nat) (nullable : Bool),
      sum ≤ uint64Max → (∀ t ∈ tiles, t.1 ≤ uint64Max) →
      (compute_fragment_sum_uint64 sum tiles nullable =
          sum + (includedTileSums tiles nullable).sum ∨
        compute_fragment_sum_uint64 sum tiles nullable = uint64Max) := by
  induction tiles with
  | nil =>
      intro sum nullable _ _
      left
      simp [compute_fragment_sum_uint64, includedTileSums]
  | cons t rest ih =>
      intro sum nullable hs hv
      obtain ⟨v, nc, cc⟩ := t
      have hvv : v ≤ uint64Max := hv (v, nc, cc) (List.mem_cons_self _ _)
      have hvr : ∀ t ∈ rest, t.1 ≤ uint64Max := fun t ht => hv t (List.mem_cons_of_mem _ ht)
      simp only [compute_fragment_sum_uint64, includedTileSums]
      by_cases h0 : nullable ∧ nc = cc
      · rw [if_pos h0, if_pos h0]
        exact ih sum nullable hs hvr
      · rw [if_neg h0, if_neg h0]
        by_cases h1 : uint64Max - v < sum
        · rw [if_pos h1]
          right; rfl
        · rw [if_neg h1]
          have hsv : sum + v ≤ uint64Max := by
            have h64 : uint64Max = 2 ^ 64 - 1 := rfl
            omega
          have hm : (sum + v) % u64Mod = sum + v := by
            apply Nat.mod_eq_of_lt
            have h64 : uint64Max = 2 ^ 64 - 1 := rfl
            have hM : u64Mod = 2 ^ 64 := rfl
            omega
          rw [hm]
          rcases ih (sum + v) nullable hsv hvr with h | h
          · left
            rw [h, List.sum_cons]
            omega
          · right; exact h

theorem compute_fragment_sum_uint64_prefix_exact (tiles : List (Nat × Nat × Nat)) :
    ∀ (sum : Nat) (nullable : Bool),
      (∀ t ∈ tiles, t.1 ≤ uint64Max) →
      (∀ i, sum + ((includedTileSums tiles nullable).take i).sum ≤ uint64Max) →
      compute_fragment_sum_uint64 sum tiles nullable =
        sum + (includedTileSums tiles nullable).sum := by
  induction tiles with
  | nil =>
      intro sum nullable _ _
      simp [compute_fragment_sum_uint64, includedTileSums]
  | cons t rest ih =>
      intro sum nullable hv hpre
      obtain ⟨v, nc, cc⟩ := t
      have hvr : ∀ t ∈ rest, t.1 ≤ uint64Max := fun t ht => hv t (List.mem_cons_of_mem _ ht)
      by_cases h0 : nullable ∧ nc = cc
      · have hInc : includedTileSums ((v, nc, cc) :: rest) nullable =
            includedTileSums rest nullable := by
          simp only [includedTileSums]
          rw [if_pos h0]
        rw [hInc] at hpre
        simp only [compute_fragment_sum_uint64]
        rw [if_pos h0, hInc]
        exact ih sum nullable hvr hpre
      · have hInc : includedTileSums ((v, nc, cc) :: rest) nullable =
            v :: includedTileSums rest nullable := by
          simp only [includedTileSums]
          rw [if_neg h0]
        rw [hInc] at hpre
        have h1v := hpre 1
        simp only [List.take_succ_cons, List.take_zero, List.sum_cons,
          List.sum_nil, Nat.add_zero] at h1v
        simp only [compute_fragment_sum_uint64]
        rw [if_neg h0, if_neg (by omega)]
        have hm : (sum + v) % u64Mod = sum + v := by
          apply Nat.mod_eq_of_lt
          have h64 : uint64Max = 2 ^ 64 - 1 := rfl
          have hM : u64Mod = 2 ^ 64 := rfl
          omega
        rw [hm]
        have hpre' : ∀ i,
            (sum + v) + ((includedTileSums rest nullable).take i).sum ≤ uint64Max := by
          intro i
          have := hpre (i + 1)
          simp only [List.take_succ_cons, List.sum_cons] at this
          omega
        rw [ih (sum + v) nullable hvr hpre', hInc, List.sum_cons]
        omega

theorem compute_fragment_sum_double_exact_or_limit (dmax : ℚ)
    (tiles : List (ℚ × Nat × Nat)) :
    ∀ (sum : ℚ) (nullable : Bool),
      compute_fragment_sum_double dmax sum tiles nullable =
          sum + (includedTileSums tiles nullable).sum ∨
      compute_fragment_sum_double dmax sum tiles nullable = dmax ∨
      compute_fragment_sum_double dmax sum tiles nullable = -dmax := by
  induction tiles with
  | nil =>
      intro sum nullable
      left
      simp [compute_fragment_sum_double, includedTileSums]
  | cons t rest ih =>
      intro sum nullable
      obtain ⟨v, nc, cc⟩ := t
      simp only [compute_fragment_sum_double, includedTileSums]
      by_cases h0 : nullable ∧ nc = cc
      · rw [if_pos h0, if_pos h0]
        exact ih sum nullable
      · rw [if_neg h0, if_neg h0]
        by_cases h1 : ((sum < 0) ↔ (v < 0)) ∧ dmax - |v| < |sum|
        · rw [if_pos h1]
          by_cases h2 : sum < 0
          · rw [if_pos h2]; right; right; rfl
          · rw [if_neg h2]; right; left; rfl
        · rw [if_neg h1]
          rcases ih (sum + v) nullable with h | h | h
          · left
            rw [h, List.sum_cons]
            ring
          · right; left; exact h
          · right; right; exact h

/-- C5.  For all three sum types the fragment sum accumulates the
per-tile sums of the tiles that are not entirely null and never wraps:
the result is either the exact sum of the included per-tile sums or the
type's saturation limit; it is exact whenever no prefix of the
accumulation leaves the representable range; and per-tile sums
`[i64::MAX, 1]` produce `i64::MAX`. -/
theorem compute_fragment_sum_saturates
    (tilesI : List (Int × Nat × Nat)) (tilesU : List (Nat × Nat × Nat))
    (tilesD : List (ℚ × Nat × Nat)) (nullable : Bool) (dmax : ℚ)
    (hvU : ∀ t ∈ tilesU, t.1 ≤ uint64Max) :
    (compute_fragment_sum_int64 0 tilesI nullable =
        (includedTileSums tilesI nullable).sum ∨
      compute_fragment_sum_int64 0 tilesI nullable = int64Max ∨
      compute_fragment_sum_int64 0 tilesI nullable = int64Min) ∧
    ((∀ i, int64Min ≤ ((includedTileSums tilesI nullable).take i).sum ∧
        ((includedTileSums tilesI nullable).take i).sum ≤ int64Max) →
      compute_fragment_sum_int64 0 tilesI nullable =
        (includedTileSums tilesI nullable).sum) ∧
    (compute_fragment_sum_uint64 0 tilesU nullable =
        (includedTileSums tilesU nullable).sum ∨
      compute_fragment_sum_uint64 0 tilesU nullable = uint64Max) ∧
    ((∀ i, ((includedTileSums tilesU nullable).take i).sum ≤ uint64Max) →
      compute_fragment_sum_uint64 0 tilesU nullable =
        (includedTileSums tilesU nullable).sum) ∧
    (compute_fragment_sum_double dmax 0 tilesD nullable =
        (includedTileSums tilesD nullable).sum ∨
      compute_fragment_sum_double dmax 0 tilesD nullable = dmax ∨
      compute_fragment_sum_double dmax 0 tilesD nullable = -dmax) ∧
    compute_fragment_sum_int64 0 [(int64Max, 0, 1), (1, 0, 1)] false = int64Max := by
  refine ⟨?_, ?_, ?_, ?_, ?_, ?_⟩
  · have := compute_fragment_sum_int64_exact_or_limit tilesI 0 nullable
    simpa using this
  · intro hpre
    have := compute_fragment_sum_int64_prefix_exact tilesI 0 nullable
      (by intro i; have := hpre i; constructor <;> [linarith [this.1]; linarith [this.2]])
    simpa using this
  · have := compute_fragment_sum_uint64_exact_or_max tilesU 0 nullable
      (by have : uint64Max = 2 ^ 64 - 1 := rfl; omega) hvU
    simpa using this
  · intro hpre
    have := compute_fragment_sum_uint64_prefix_exact tilesU 0 nullable hvU
      (by intro i; simpa using hpre i)
    simpa using this
  · have := compute_fragment_sum_double_exact_or_limit dmax tilesD 0 nullable
    simpa using this
  · decide

/-- C5 witness: concrete tiles for each sum type. -/
theorem compute_fragment_sum_saturates_witness :
    (∀ t ∈ ([(4, 0, 1), (7, 1, 1)] : List (Nat × Nat × Nat)), t.1 ≤ uint64Max) ∧
    ((compute_fragment_sum_int64 0 [(5, 0, 2), (-3, 1, 2)] true =
        (includedTileSums [(5, 0, 2), (-3, 1, 2)] true).sum ∨
      compute_fragment_sum_int64 0 [(5, 0, 2), (-3, 1, 2)] true = int64Max ∨
      compute_fragment_sum_int64 0 [(5, 0, 2), (-3, 1, 2)] true = int64Min) ∧
    ((∀ i, int64Min ≤ ((includedTileSums [(5, 0, 2), (-3, 1, 2)] true).take i).sum ∧
        ((includedTileSums [(5, 0, 2), (-3, 1, 2)] true).take i).sum ≤ int64Max) →
      compute_fragment_sum_int64 0 [(5, 0, 2), (-3, 1, 2)] true =
        (includedTileSums [(5, 0, 2), (-3, 1, 2)] true).sum) ∧
    (compute_fragment_sum_uint64 0 [(4, 0, 1), (7, 1, 1)] true =
        (includedTileSums [(4, 0, 1), (7, 1, 1)] true).sum ∨
      compute_fragment_sum_uint64 0 [(4, 0, 1), (7, 1, 1)] true = uint64Max) ∧
    ((∀ i, ((includedTileSums [(4, 0, 1), (7, 1, 1)] true).take i).sum ≤ uint64Max) →
      compute_fragment_sum_uint64 0 [(4, 0, 1), (7, 1, 1)] true =
        (includedTileSums [(4, 0, 1), (7, 1, 1)] true).sum) ∧
    (compute_fragment_sum_double 100 0 [((1 : ℚ) / 2, 0, 1)] true =
        (includedTileSums [((1 : ℚ) / 2, 0, 1)] true).sum ∨
      compute_fragment_sum_double 100 0 [((1 : ℚ) / 2, 0, 1)] true = 100 ∨
      compute_fragment_sum_double 100 0 [((1 : ℚ) / 2, 0, 1)] true = -100) ∧
    compute_fragment_sum_int64 0 [(int64Max, 0, 1), (1, 0, 1)] false = int64Max) :=
  ⟨by decide,
    compute_fragment_sum_saturates [(5, 0, 2), (-3, 1, 2)] [(4, 0, 1), (7, 1, 1)]
      [((1 : ℚ) / 2, 0, 1)] true 100 (by decide)⟩

/-! ## C2: fragment-level min/max over per-tile min/max values

`compute_fragment_min_max_sum<T>` (generic template) indexes the
per-tile buffers by the tile number `t`; the `char` specialization
walks the buffers with pointers (`min_values += cell_val_num`) that are
advanced only inside the
`if (!nullable || null_count_values[t] != cell_num(t))` block. -/

/-- The sign of `strncmp(a, b, n)`: compare at most `n` bytes (as
unsigned chars), stopping at the first difference or at a NUL byte. -/
def strncmpSign : List Nat → List Nat → Nat → Int
  | _, _, 0 => 0
  | [], [], _ + 1 => 0
  | [], _ :: _, _ + 1 => 0
  | _ :: _, [], _ + 1 => 0
  | a :: as, b :: bs, n + 1 =>
    if a < b then -1
    else if b < a then 1
    else if a = 0 then 0
    else strncmpSign as bs n

/-- The min/max part of the generic `compute_fragment_min_max_sum<T>`:
tiles are `(min value, max value, null count, cell count)`; entirely
null tiles are skipped, the others update `min`/`max` with
`min = min < min_values[t] ? min : min_values[t]` and
`max = max > max_values[t] ? max : max_values[t]`.
The start values come from `metadata_generator_type_data<T>` — that
header is not among the excerpted sources; modelled from the spec
(§4.3, native `<` fold), they are the identities of the fold: `initMin`
is the type's largest value and `initMax` its lowest. -/
def compute_fragment_min_max_fixed (nullable : Bool) :
    Int → Int → List (Int × Int × Nat × Nat) → Int × Int
  | mn, mx, [] => (mn, mx)
  | mn, mx, (minv, maxv, nc, cc) :: rest =>
    if nullable ∧ nc = cc then compute_fragment_min_max_fixed nullable mn mx rest
    else compute_fragment_min_max_fixed nullable
      (if mn < minv then mn else minv) (if mx > maxv then mx else maxv) rest

/-- The loop of `compute_fragment_min_max_sum<char>`: the per-tile min
(max) values are consecutive `cell_val_num`-byte entries of
`tile_min_buffer_` (`tile_max_buffer_`), given here as `minEntries` /
`maxEntries` where entry `t` holds tile `t`'s recorded value; `p` is
the entry the `min_values` / `max_values` pointers point at, advanced
only when a tile is processed, exactly as in the source. -/
def charMinMaxLoop (cvn : Nat) (minEntries maxEntries : List (List Nat))
    (nullable : Bool) :
    Option (List Nat) → Option (List Nat) → Nat → List (Nat × Nat) →
      Option (List Nat) × Option (List Nat)
  | mn, mx, _, [] => (mn, mx)
  | mn, mx, p, (nc, cc) :: rest =>
    if ¬nullable ∨ nc ≠ cc then
      let curMin := minEntries.getD p []
      let mn' := match mn with
        | none => some curMin
        | some m => if 0 < strncmpSign m curMin cvn then some curMin else some m
      let curMax := maxEntries.getD p []
      let mx' := match mx with
        | none => some curMax
        | some m => if strncmpSign m curMax cvn < 0 then some curMax else some m
      charMinMaxLoop cvn minEntries maxEntries nullable mn' mx' (p + 1) rest
    else charMinMaxLoop cvn minEntries maxEntries nullable mn mx p rest

/-- `compute_fragment_min_max_sum<char>` (min/max part): tiles are
`(null count, cell count)` pairs, `min`/`max` start as null. -/
def compute_fragment_min_max_char (cvn : Nat)
    (minEntries maxEntries : List (List Nat)) (tiles : List (Nat × Nat))
    (nullable : Bool) : Option (List Nat) × Option (List Nat) :=
  charMinMaxLoop cvn minEntries maxEntries nullable none none 0 tiles

/-- What C2 claims the fragment min of a char field is: the
lexicographic minimum of the recorded per-tile values of exactly the
tiles whose null count is less than their cell count. -/
def charMinOverNonNullTiles (cvn : Nat) (entries : List (List Nat))
    (tiles : List (Nat × Nat)) (nullable : Bool) : Option (List Nat) :=
  ((entries.zip tiles).filter (fun e => !(nullable && e.2.1 == e.2.2))).foldl
    (fun mn e => match mn with
      | none => some e.1
      | some m => if 0 < strncmpSign m e.1 cvn then some e.1 else some m) none

/-- C2.  For a nullable char field (`cell_val_num = 1`) with two tiles,
tile 0 entirely null with recorded min/max byte `97` and tile 1 not
null with recorded min/max byte `98`, the char specialization returns
`97` for both the fragment min and max: because the value pointers are
advanced only for processed tiles, tile 1 is compared against tile 0's
buffer entry.  The claim (and the spec) require the min/max over the
non-null tiles, i.e. `98` — which the generic numeric template does
produce on the analogous input. -/
theorem compute_fragment_min_max_char_reads_wrong_entry :
    compute_fragment_min_max_char 1 [[97], [98]] [[97], [98]] [(1, 1), (0, 1)] true =
      (some [97], some [97]) ∧
    charMinOverNonNullTiles 1 [[97], [98]] [(1, 1), (0, 1)] true = some [98] ∧
    (compute_fragment_min_max_char 1 [[97], [98]] [[97], [98]]
        [(1, 1), (0, 1)] true).1 ≠
      charMinOverNonNullTiles 1 [[97], [98]] [(1, 1), (0, 1)] true ∧
    compute_fragment_min_max_fixed true int64Max int64Min
      [(97, 97, 1, 1), (98, 98, 0, 1)] = (98, 98) := by
  refine ⟨?_, ?_, ?_, ?_⟩ <;> decide

/-! ## The `FragmentMetadata` reader state: lazy sections, loaded flags

The per-fragment state consulted by the lazy loaders, the free
functions, and the guarded accessors of fragment_metadata.cc.  Buffers
hold abstract byte/word lists; per-field vectors are parallel lists
(the footer loader sizes them all to `num_dims_and_attrs`).  The
`disk*` components are the section payloads in the immutable metadata
file (`read_generic_tile_from_file` + deserialization is deterministic,
so a section read is a pure function of them).  The memory tracker is
the single budget counter of §4.7, with running totals of all bytes
taken and released. -/
structure FMState where
  version : Nat
  tileNum : Nat
  tileOffsets : List (List Nat)
  tileVarOffsets : List (List Nat)
  tileValidityOffsets : List (List Nat)
  tileVarSizes : List (List Nat)
  tileMinBuffer : List (List Nat)
  tileMaxBuffer : List (List Nat)
  tileSums : List (List Nat)
  tileNullCounts : List (List Nat)
  fragmentMins : List (List Nat)
  fragmentMaxs : List (List Nat)
  fragmentSums : List Nat
  fragmentNullCounts : List Nat
  rtreeLeaves : List Nat
  rtreeBytes : Nat
  fileSizes : List Nat
  fileVarSizes : List Nat
  fileValiditySizes : List Nat
  loadedTileOffsets : List Bool
  loadedTileVarOffsets : List Bool
  loadedTileValidityOffsets : List Bool
  loadedTileVarSizes : List Bool
  loadedTileMin : List Bool
  loadedTileMax : List Bool
  loadedTileSum : List Bool
  loadedTileNullCount : List Bool
  loadedRtree : Bool
  loadedFragmentMinMaxSumNullCount : Bool
  loadedFooter : Bool
  varSize : List Bool
  isNullable : List Bool
  hasMinMaxMetadata : List Bool
  hasSumMetadata : List Bool
  cellSize : List Nat
  memAvailable : Nat
  memTaken : Nat
  memReleased : Nat
  diskRtree : List Nat
  diskTileOffsets : List (List Nat)
  diskTileVarOffsets : List (List Nat)
  diskTileValidityOffsets : List (List Nat)
  diskTileVarSizes : List (List Nat)
deriving DecidableEq

/-- `FragmentMetadata::file_offset(name, tile_idx)` (the `idx_map_`
lookup is done, `idx` is the field index): throws unless
`loaded_metadata_.tile_offsets_[idx]`. -/
def FMState.file_offset (s : FMState) (idx tileIdx : Nat) : Except String Nat :=
  if ¬s.loadedTileOffsets.getD idx false then
    .error "Trying to access tile offsets metadata that is not loaded"
  else .ok ((s.tileOffsets.getD idx []).getD tileIdx 0)

/-- `FragmentMetadata::file_var_offset`. -/
def FMState.file_var_offset (s : FMState) (idx tileIdx : Nat) : Except String Nat :=
  if ¬s.loadedTileVarOffsets.getD idx false then
    .error "Trying to access tile var offsets metadata that is not loaded"
  else .ok ((s.tileVarOffsets.getD idx []).getD tileIdx 0)

/-- `FragmentMetadata::file_validity_offset`. -/
def FMState.file_validity_offset (s : FMState) (idx tileIdx : Nat) : Except String Nat :=
  if ¬s.loadedTileValidityOffsets.getD idx false then
    .error "Trying to access tile validity offsets metadata that is not loaded"
  else .ok ((s.tileValidityOffsets.getD idx []).getD tileIdx 0)

/-- `FragmentMetadata::persisted_tile_size` (guard included; the
arithmetic is the one verified in C1). -/
def FMState.persisted_tile_size (s : FMState) (idx tileIdx : Nat) : Except String Nat :=
  if ¬s.loadedTileOffsets.getD idx false then
    .error "Trying to access persisted tile offsets metadata that is not present"
  else .ok (if tileIdx ≠ s.tileNum - 1 then
      u64sub ((s.tileOffsets.getD idx []).getD (tileIdx + 1) 0)
        ((s.tileOffsets.getD idx []).getD tileIdx 0)
    else
      u64sub (s.fileSizes.getD idx 0) ((s.tileOffsets.getD idx []).getD tileIdx 0))

/-- `FragmentMetadata::tile_var_size`. -/
def FMState.tile_var_size (s : FMState) (idx tileIdx : Nat) : Except String Nat :=
  if ¬s.loadedTileVarSizes.getD idx false then
    .error "Trying to access tile var size metadata that is not loaded"
  else .ok ((s.tileVarSizes.getD idx []).getD tileIdx 0)

/-- `FragmentMetadata::get_tile_min_as<T>` (generic, fixed-size
overload): rejects var-size fields, then checks the loaded flag, then
`has_min_max_metadata`, and finally reads the `cell_size`-byte entry. -/
def FMState.get_tile_min_as (s : FMState) (idx tileIdx : Nat) :
    Except String (List Nat) :=
  if s.varSize.getD idx false then
    .error "Trying to access tile min metadata as wrong type"
  else if ¬s.loadedTileMin.getD idx false then
    .error "Trying to access tile min metadata that is not loaded"
  else if ¬s.hasMinMaxMetadata.getD idx false then
    .error "Trying to access tile min metadata that is not present"
  else
    .ok (((s.tileMinBuffer.getD idx []).drop (tileIdx * s.cellSize.getD idx 0)).take
      (s.cellSize.getD idx 0))

/-- `FragmentMetadata::get_tile_max_as<T>` (generic, fixed-size
overload). -/
def FMState.get_tile_max_as (s : FMState) (idx tileIdx : Nat) :
    Except String (List Nat) :=
  if s.varSize.getD idx false then
    .error "Trying to access tile max metadata as wrong type"
  else if ¬s.loadedTileMax.getD idx false then
    .error "Trying to access tile max metadata that is not loaded"
  else if ¬s.hasMinMaxMetadata.getD idx false then
    .error "Trying to access tile max metadata that is not present"
  else
    .ok (((s.tileMaxBuffer.getD idx []).drop (tileIdx * s.cellSize.getD idx 0)).take
      (s.cellSize.getD idx 0))

/-- `FragmentMetadata::get_tile_sum`: loaded flag, then
`has_sum_metadata`, then the 8-byte entry. -/
def FMState.get_tile_sum (s : FMState) (idx tileIdx : Nat) :
    Except String (List Nat) :=
  if ¬s.loadedTileSum.getD idx false then
    .error "Trying to access tile sum metadata that is not loaded"
  else if ¬s.hasSumMetadata.getD idx false then
    .error "Trying to access tile sum metadata that is not present"
  else .ok (((s.tileSums.getD idx []).drop (tileIdx * 8)).take 8)

/-- `FragmentMetadata::get_tile_null_count`: loaded flag, then
`is_nullable`. -/
def FMState.get_tile_null_count (s : FMState) (idx tileIdx : Nat) :
    Except String Nat :=
  if ¬s.loadedTileNullCount.getD idx false then
    .error "Trying to access tile null count metadata that is not loaded"
  else if ¬s.isNullable.getD idx false then
    .error "Trying to access tile null count metadata that is not present"
  else .ok ((s.tileNullCounts.getD idx []).getD tileIdx 0)

/-- `FragmentMetadata::get_min`. -/
def FMState.get_min (s : FMState) (idx : Nat) : Except String (List Nat) :=
  if ¬s.loadedFragmentMinMaxSumNullCount then
    .error "Trying to access fragment min metadata that is not loaded"
  else if ¬s.hasMinMaxMetadata.getD idx false then
    .error "Trying to access fragment min metadata that is not present"
  else .ok (s.fragmentMins.getD idx [])

/-- `FragmentMetadata::get_max`. -/
def FMState.get_max (s : FMState) (idx : Nat) : Except String (List Nat) :=
  if ¬s.loadedFragmentMinMaxSumNullCount then
    .error "Trying to access fragment max metadata that is not loaded"
  else if ¬s.hasMinMaxMetadata.getD idx false then
    .error "Trying to access fragment max metadata that is not present"
  else .ok (s.fragmentMaxs.getD idx [])

/-- `FragmentMetadata::get_sum`. -/
def FMState.get_sum (s : FMState) (idx : Nat) : Except String Nat :=
  if ¬s.loadedFragmentMinMaxSumNullCount then
    .error "Trying to access fragment sum metadata that is not loaded"
  else if ¬s.hasSumMetadata.getD idx false then
    .error "Trying to access fragment sum metadata that is not present"
  else .ok (s.fragmentSums.getD idx 0)

/-- `FragmentMetadata::get_null_count`. -/
def FMState.get_null_count (s : FMState) (idx : Nat) : Except String Nat :=
  if ¬s.loadedFragmentMinMaxSumNullCount then
    .error "Trying to access fragment null count metadata that is not loaded"
  else if ¬s.isNullable.getD idx false then
    .error "Trying to access fragment null count metadata that is not present"
  else .ok (s.fragmentNullCounts.getD idx 0)

/-- `FragmentMetadata::get_tile_overlap`: the only guard is
`assert(version_ <= 2 || loaded_metadata_.rtree_)` — a debug assertion
that is compiled out under NDEBUG and in any case does not throw — and
then the R-tree is queried unconditionally.  The overlap computation
itself lives in rtree.cc (outside the excerpt); what the query reads is
the in-memory leaf data, returned here. -/
def FMState.get_tile_overlap (s : FMState) : Except String (List Nat) :=
  .ok s.rtreeLeaves

/-- `FragmentMetadata::compute_tile_bitmap`: same shape as
`get_tile_overlap` — a debug assertion, then an unconditional R-tree
query. -/
def FMState.compute_tile_bitmap (s : FMState) : Except String (List Nat) :=
  .ok s.rtreeLeaves

/-- `FragmentMetadata::free_tile_offsets`: five loops, each releasing
the vector bytes to the tracker, clearing the vector and resetting the
loaded flag — over the fixed tile offsets, the var offsets, the fixed
tile offsets a second time (by then already cleared, so the second pass
releases 0 bytes), the validity offsets, and the var sizes.  The flag
vectors are parallel to the section vectors (the footer loader sizes
both to `num_dims_and_attrs`), so the per-index stores are the
constant-`false` map. -/
def FMState.free_tile_offsets (s : FMState) : FMState :=
  let rel1 := (s.tileOffsets.map (fun l => l.length * 8)).sum
  let s1 : FMState := { s with
    memAvailable := s.memAvailable + rel1
    memReleased := s.memReleased + rel1
    tileOffsets := s.tileOffsets.map (fun _ => ([] : List Nat))
    loadedTileOffsets := s.loadedTileOffsets.map (fun _ => false) }
  let rel2 := (s1.tileVarOffsets.map (fun l => l.length * 8)).sum
  let s2 : FMState := { s1 with
    memAvailable := s1.memAvailable + rel2
    memReleased := s1.memReleased + rel2
    tileVarOffsets := s1.tileVarOffsets.map (fun _ => ([] : List Nat))
    loadedTileVarOffsets := s1.loadedTileVarOffsets.map (fun _ => false) }
  let rel3 := (s2.tileOffsets.map (fun l => l.length * 8)).sum
  let s3 : FMState := { s2 with
    memAvailable := s2.memAvailable + rel3
    memReleased := s2.memReleased + rel3
    tileOffsets := s2.tileOffsets.map (fun _ => ([] : List Nat))
    loadedTileOffsets := s2.loadedTileOffsets.map (fun _ => false) }
  let rel4 := (s3.tileValidityOffsets.map (fun l => l.length * 8)).sum
  let s4 : FMState := { s3 with
    memAvailable := s3.memAvailable + rel4
    memReleased := s3.memReleased + rel4
    tileValidityOffsets := s3.tileValidityOffsets.map (fun _ => ([] : List Nat))
    loadedTileValidityOffsets := s3.loadedTileValidityOffsets.map (fun _ => false) }
  let rel5 := (s4.tileVarSizes.map (fun l => l.length * 8)).sum
  { s4 with
    memAvailable := s4.memAvailable + rel5
    memReleased := s4.memReleased + rel5
    tileVarSizes := s4.tileVarSizes.map (fun _ => ([] : List Nat))
    loadedTileVarSizes := s4.loadedTileVarSizes.map (fun _ => false) }

/-- `FragmentMetadata::free_rtree`: release `rtree_.free_memory()`
bytes and reset the flag.  `RTree::free_memory` lives in rtree.cc,
outside the excerpted sources.  Modelled from the spec: §4.2 (it drops
the tree and reports the bytes released) and §8 invariant 8
(`load → free → load` has zero net memory charge), so it returns
exactly the bytes `load_rtree` charged for the tree. -/
def FMState.free_rtree (s : FMState) : FMState :=
  { s with
    rtreeLeaves := []
    rtreeBytes := 0
    memAvailable := s.memAvailable + s.rtreeBytes
    memReleased := s.memReleased + s.rtreeBytes
    loadedRtree := false }

/-- A concrete single-field state with every lazy section loaded. -/
def allLoadedFMState : FMState :=
  { version := 10, tileNum := 2
    tileOffsets := [[0, 5]], tileVarOffsets := [[0, 3]]
    tileValidityOffsets := [[0, 2]], tileVarSizes := [[4, 6]]
    tileMinBuffer := [[1, 2]], tileMaxBuffer := [[3, 4]]
    tileSums := [[0, 0, 0, 0, 0, 0, 0, 0]], tileNullCounts := [[0, 1]]
    fragmentMins := [[1]], fragmentMaxs := [[4]]
    fragmentSums := [7], fragmentNullCounts := [1]
    rtreeLeaves := [5, 6], rtreeBytes := 2
    fileSizes := [9], fileVarSizes := [8], fileValiditySizes := [2]
    loadedTileOffsets := [true], loadedTileVarOffsets := [true]
    loadedTileValidityOffsets := [true], loadedTileVarSizes := [true]
    loadedTileMin := [true], loadedTileMax := [true]
    loadedTileSum := [true], loadedTileNullCount := [true]
    loadedRtree := true, loadedFragmentMinMaxSumNullCount := true
    loadedFooter := true
    varSize := [false], isNullable := [true]
    hasMinMaxMetadata := [true], hasSumMetadata := [true]
    cellSize := [1]
    memAvailable := 100, memTaken := 0, memReleased := 0
    diskRtree := [5, 6]
    diskTileOffsets := [[0, 5]], diskTileVarOffsets := [[0, 3]]
    diskTileValidityOffsets := [[0, 2]], diskTileVarSizes := [[4, 6]] }

/-- The same state with every lazy-section flag cleared. -/
def unloadedFMState : FMState :=
  { allLoadedFMState with
    loadedTileOffsets := [false], loadedTileVarOffsets := [false]
    loadedTileValidityOffsets := [false], loadedTileVarSizes := [false]
    loadedTileMin := [false], loadedTileMax := [false]
    loadedTileSum := [false], loadedTileNullCount := [false]
    loadedRtree := false, loadedFragmentMinMaxSumNullCount := false }

/-- C4 counterexample.  With the R-tree flag false (and version > 2),
`get_tile_overlap` and `compute_tile_bitmap` do not throw: their only
guard is a debug `assert`, and they return data from the (stale)
R-tree. -/
theorem get_tile_overlap_returns_data_when_rtree_not_loaded :
    ({ allLoadedFMState with loadedRtree := false } : FMState).loadedRtree = false ∧
    2 < ({ allLoadedFMState with loadedRtree := false } : FMState).version ∧
    ({ allLoadedFMState with loadedRtree := false } : FMState).get_tile_overlap =
      .ok [5, 6] ∧
    ({ allLoadedFMState with loadedRtree := false } : FMState).compute_tile_bitmap =
      .ok [5, 6] :=
  ⟨rfl, by decide, rfl, rfl⟩

/-- C4 as amended.  With the corresponding loaded flag false, every
listed accessor except `get_tile_overlap` and `compute_tile_bitmap`
throws; those two only carry a debug assertion and return data from
the R-tree. -/
theorem accessors_fault_when_not_loaded (s : FMState) (idx tileIdx : Nat)
    (hOff : s.loadedTileOffsets.getD idx false = false)
    (hVarOff : s.loadedTileVarOffsets.getD idx false = false)
    (hValOff : s.loadedTileValidityOffsets.getD idx false = false)
    (hVarSz : s.loadedTileVarSizes.getD idx false = false)
    (hMin : s.loadedTileMin.getD idx false = false)
    (hMax : s.loadedTileMax.getD idx false = false)
    (hSum : s.loadedTileSum.getD idx false = false)
    (hNc : s.loadedTileNullCount.getD idx false = false)
    (hFrag : s.loadedFragmentMinMaxSumNullCount = false)
    (hRt : s.loadedRtree = false) :
    (s.file_offset idx tileIdx).isOk = false ∧
    (s.file_var_offset idx tileIdx).isOk = false ∧
    (s.file_validity_offset idx tileIdx).isOk = false ∧
    (s.persisted_tile_size idx tileIdx).isOk = false ∧
    (s.tile_var_size idx tileIdx).isOk = false ∧
    (s.get_tile_min_as idx tileIdx).isOk = false ∧
    (s.get_tile_max_as idx tileIdx).isOk = false ∧
    (s.get_tile_sum idx tileIdx).isOk = false ∧
    (s.get_tile_null_count idx tileIdx).isOk = false ∧
    (s.get_min idx).isOk = false ∧
    (s.get_max idx).isOk = false ∧
    (s.get_sum idx).isOk = false ∧
    (s.get_null_count idx).isOk = false ∧
    s.get_tile_overlap = .ok s.rtreeLeaves ∧
    s.compute_tile_bitmap = .ok s.rtreeLeaves := by
  simp only [List.getD, List.get?_eq_getElem?] at hOff hVarOff hValOff hVarSz hMin hMax hSum hNc
  refine ⟨?_, ?_, ?_, ?_, ?_, ?_, ?_, ?_, ?_, ?_, ?_, ?_, ?_, rfl, rfl⟩
  · simp [FMState.file_offset, hOff, Except.isOk, Except.toBool]
  · simp [FMState.file_var_offset, hVarOff, Except.isOk, Except.toBool]
  · simp [FMState.file_validity_offset, hValOff, Except.isOk, Except.toBool]
  · simp [FMState.persisted_tile_size, hOff, Except.isOk, Except.toBool]
  · simp [FMState.tile_var_size, hVarSz, Except.isOk, Except.toBool]
  · by_cases hv : s.varSize[idx]?.getD false <;>
      simp [FMState.get_tile_min_as, hv, hMin, Except.isOk, Except.toBool]
  · by_cases hv : s.varSize[idx]?.getD false <;>
      simp [FMState.get_tile_max_as, hv, hMax, Except.isOk, Except.toBool]
  · simp [FMState.get_tile_sum, hSum, Except.isOk, Except.toBool]
  · simp [FMState.get_tile_null_count, hNc, Except.isOk, Except.toBool]
  · simp [FMState.get_min, hFrag, Except.isOk, Except.toBool]
  · simp [FMState.get_max, hFrag, Except.isOk, Except.toBool]
  · simp [FMState.get_sum, hFrag, Except.isOk, Except.toBool]
  · simp [FMState.get_null_count, hFrag, Except.isOk, Except.toBool]

/-- C4 amended-claim witness: the concrete unloaded state, field 0,
tile 0. -/
theorem accessors_fault_when_not_loaded_witness :
    (unloadedFMState.loadedTileOffsets.getD 0 false = false ∧
      unloadedFMState.loadedTileVarOffsets.getD 0 false = false ∧
      unloadedFMState.loadedTileValidityOffsets.getD 0 false = false ∧
      unloadedFMState.loadedTileVarSizes.getD 0 false = false ∧
      unloadedFMState.loadedTileMin.getD 0 false = false ∧
      unloadedFMState.loadedTileMax.getD 0 false = false ∧
      unloadedFMState.loadedTileSum.getD 0 false = false ∧
      unloadedFMState.loadedTileNullCount.getD 0 false = false ∧
      unloadedFMState.loadedFragmentMinMaxSumNullCount = false ∧
      unloadedFMState.loadedRtree = false) ∧
    ((unloadedFMState.file_offset 0 0).isOk = false ∧
      (unloadedFMState.file_var_offset 0 0).isOk = false ∧
      (unloadedFMState.file_validity_offset 0 0).isOk = false ∧
      (unloadedFMState.persisted_tile_size 0 0).isOk = false ∧
      (unloadedFMState.tile_var_size 0 0).isOk = false ∧
      (unloadedFMState.get_tile_min_as 0 0).isOk = false ∧
      (unloadedFMState.get_tile_max_as 0 0).isOk = false ∧
      (unloadedFMState.get_tile_sum 0 0).isOk = false ∧
      (unloadedFMState.get_tile_null_count 0 0).isOk = false ∧
      (unloadedFMState.get_min 0).isOk = false ∧
      (unloadedFMState.get_max 0).isOk = false ∧
      (unloadedFMState.get_sum 0).isOk = false ∧
      (unloadedFMState.get_null_count 0).isOk = false ∧
      unloadedFMState.get_tile_overlap = .ok unloadedFMState.rtreeLeaves ∧
      unloadedFMState.compute_tile_bitmap = .ok unloadedFMState.rtreeLeaves) :=
  ⟨⟨rfl, rfl, rfl, rfl, rfl, rfl, rfl, rfl, rfl, rfl⟩,
    accessors_fault_when_not_loaded unloadedFMState 0 0
      rfl rfl rfl rfl rfl rfl rfl rfl rfl rfl⟩

/-- The lazy-load section families of a `FragmentMetadata`. -/
inductive SectionKind
  | rtree
  | tileOffsets
  | tileVarOffsets
  | tileValidityOffsets
  | tileVarSizes
  | tileMin
  | tileMax
  | tileSum
  | tileNullCount
  | fragmentRollup
  | footer
deriving DecidableEq

def allSectionKinds : List SectionKind :=
  [.rtree, .tileOffsets, .tileVarOffsets, .tileValidityOffsets, .tileVarSizes,
   .tileMin, .tileMax, .tileSum, .tileNullCount, .fragmentRollup, .footer]

/-- Whether a section family is (fully) loaded in a state. -/
def sectionLoaded (s : FMState) : SectionKind → Bool
  | .rtree => s.loadedRtree
  | .tileOffsets => s.loadedTileOffsets.all (fun b => b)
  | .tileVarOffsets => s.loadedTileVarOffsets.all (fun b => b)
  | .tileValidityOffsets => s.loadedTileValidityOffsets.all (fun b => b)
  | .tileVarSizes => s.loadedTileVarSizes.all (fun b => b)
  | .tileMin => s.loadedTileMin.all (fun b => b)
  | .tileMax => s.loadedTileMax.all (fun b => b)
  | .tileSum => s.loadedTileSum.all (fun b => b)
  | .tileNullCount => s.loadedTileNullCount.all (fun b => b)
  | .fragmentRollup => s.loadedFragmentMinMaxSumNullCount
  | .footer => s.loadedFooter

/-- The section families whose loaded flag `free_tile_offsets` turns
from true to false in a given state. -/
def clearedSectionKinds (s : FMState) : List SectionKind :=
  allSectionKinds.filter
    (fun k => sectionLoaded s k && !(sectionLoaded s.free_tile_offsets k))

/-- C10 counterexample.  On a state with every section loaded,
`free_tile_offsets` clears exactly four section families — the fixed
tile offsets, the var offsets, the validity offsets and the var sizes —
not five as the claim says (the fixed-offsets loop merely appears twice
in the source). -/
theorem free_tile_offsets_clears_four_families_not_five :
    clearedSectionKinds allLoadedFMState =
      [.tileOffsets, .tileVarOffsets, .tileValidityOffsets, .tileVarSizes] ∧
    (clearedSectionKinds allLoadedFMState).length = 4 ∧
    (clearedSectionKinds allLoadedFMState).length ≠ 5 := by
  refine ⟨?_, ?_, ?_⟩ <;> decide

/-- C10 as amended.  `free_tile_offsets` clears the vectors and resets
the loaded flags of exactly four section families — fixed tile offsets,
tile var offsets, tile validity offsets and tile var sizes (the last
despite the name) — and leaves the R-tree, the tile min/max buffers,
the tile sums, the tile null counts, the fragment-level rollup, the
footer contents, and all their loaded flags unchanged. -/
theorem free_tile_offsets_frame (s : FMState) :
    (s.free_tile_offsets).tileOffsets = s.tileOffsets.map (fun _ => []) ∧
    (s.free_tile_offsets).loadedTileOffsets =
      s.loadedTileOffsets.map (fun _ => false) ∧
    (s.free_tile_offsets).tileVarOffsets = s.tileVarOffsets.map (fun _ => []) ∧
    (s.free_tile_offsets).loadedTileVarOffsets =
      s.loadedTileVarOffsets.map (fun _ => false) ∧
    (s.free_tile_offsets).tileValidityOffsets =
      s.tileValidityOffsets.map (fun _ => []) ∧
    (s.free_tile_offsets).loadedTileValidityOffsets =
      s.loadedTileValidityOffsets.map (fun _ => false) ∧
    (s.free_tile_offsets).tileVarSizes = s.tileVarSizes.map (fun _ => []) ∧
    (s.free_tile_offsets).loadedTileVarSizes =
      s.loadedTileVarSizes.map (fun _ => false) ∧
    (s.free_tile_offsets).rtreeLeaves = s.rtreeLeaves ∧
    (s.free_tile_offsets).rtreeBytes = s.rtreeBytes ∧
    (s.free_tile_offsets).loadedRtree = s.loadedRtree ∧
    (s.free_tile_offsets).tileMinBuffer = s.tileMinBuffer ∧
    (s.free_tile_offsets).tileMaxBuffer = s.tileMaxBuffer ∧
    (s.free_tile_offsets).loadedTileMin = s.loadedTileMin ∧
    (s.free_tile_offsets).loadedTileMax = s.loadedTileMax ∧
    (s.free_tile_offsets).tileSums = s.tileSums ∧
    (s.free_tile_offsets).loadedTileSum = s.loadedTileSum ∧
    (s.free_tile_offsets).tileNullCounts = s.tileNullCounts ∧
    (s.free_tile_offsets).loadedTileNullCount = s.loadedTileNullCount ∧
    (s.free_tile_offsets).fragmentMins = s.fragmentMins ∧
    (s.free_tile_offsets).fragmentMaxs = s.fragmentMaxs ∧
    (s.free_tile_offsets).fragmentSums = s.fragmentSums ∧
    (s.free_tile_offsets).fragmentNullCounts = s.fragmentNullCounts ∧
    (s.free_tile_offsets).loadedFragmentMinMaxSumNullCount =
      s.loadedFragmentMinMaxSumNullCount ∧
    (s.free_tile_offsets).fileSizes = s.fileSizes ∧
    (s.free_tile_offsets).fileVarSizes = s.fileVarSizes ∧
    (s.free_tile_offsets).fileValiditySizes = s.fileValiditySizes ∧
    (s.free_tile_offsets).loadedFooter = s.loadedFooter ∧
    (s.free_tile_offsets).version = s.version ∧
    (s.free_tile_offsets).tileNum = s.tileNum := by
  refine ⟨?_, ?_, rfl, rfl, rfl, rfl, rfl, rfl, rfl, rfl, rfl, rfl, rfl, rfl,
    rfl, rfl, rfl, rfl, rfl, rfl, rfl, rfl, rfl, rfl, rfl, rfl, rfl, rfl, rfl, rfl⟩
  · show (s.tileOffsets.map (fun _ => ([] : List Nat))).map (fun _ => ([] : List Nat)) =
      s.tileOffsets.map (fun _ => [])
    simp [List.map_map, Function.comp]
  · show (s.loadedTileOffsets.map (fun _ => false)).map (fun _ => false) =
      s.loadedTileOffsets.map (fun _ => false)
    simp [List.map_map, Function.comp]

/-! ## C3: lazy loads and the memory tracker

The per-section loaders of fragment_metadata.cc: guard on the format
version, double-checked loaded flag, read the generic tile from the
(immutable) file, `take_memory` from the tracker — a refusal throws and
leaves the state untouched — then deserialize and set the flag.
`take_memory(n)` decrements the single budget counter when
`available ≥ n` (§4.7); `memTaken`/`memReleased` are the running totals
of all bytes taken and released. -/

/-- `FragmentMetadata::load_tile_offsets(key, idx)` (version guard
`≤ 2`), charging `tile_offsets_num * sizeof(uint64_t)` and skipping the
charge and the read when the section holds zero offsets. -/
def FMState.load_tile_offsets (s : FMState) (idx : Nat) : Except String FMState :=
  if s.version ≤ 2 then .ok s
  else if s.loadedTileOffsets.getD idx false then .ok s
  else if (s.diskTileOffsets.getD idx []).length = 0 then
    .ok { s with loadedTileOffsets := s.loadedTileOffsets.set idx true }
  else if s.memAvailable < (s.diskTileOffsets.getD idx []).length * 8 then
    .error "Cannot load tile offsets; Insufficient memory budget"
  else
    .ok { s with
      tileOffsets := s.tileOffsets.set idx (s.diskTileOffsets.getD idx [])
      loadedTileOffsets := s.loadedTileOffsets.set idx true
      memAvailable := s.memAvailable - (s.diskTileOffsets.getD idx []).length * 8
      memTaken := s.memTaken + (s.diskTileOffsets.getD idx []).length * 8 }

/-- `FragmentMetadata::load_tile_var_offsets(key, idx)`. -/
def FMState.load_tile_var_offsets (s : FMState) (idx : Nat) : Except String FMState :=
  if s.version ≤ 2 then .ok s
  else if s.loadedTileVarOffsets.getD idx false then .ok s
  else if (s.diskTileVarOffsets.getD idx []).length = 0 then
    .ok { s with loadedTileVarOffsets := s.loadedTileVarOffsets.set idx true }
  else if s.memAvailable < (s.diskTileVarOffsets.getD idx []).length * 8 then
    .error "Cannot load tile var offsets; Insufficient memory budget"
  else
    .ok { s with
      tileVarOffsets := s.tileVarOffsets.set idx (s.diskTileVarOffsets.getD idx [])
      loadedTileVarOffsets := s.loadedTileVarOffsets.set idx true
      memAvailable := s.memAvailable - (s.diskTileVarOffsets.getD idx []).length * 8
      memTaken := s.memTaken + (s.diskTileVarOffsets.getD idx []).length * 8 }

/-- `FragmentMetadata::load_tile_var_sizes(key, idx)`. -/
def FMState.load_tile_var_sizes (s : FMState) (idx : Nat) : Except String FMState :=
  if s.version ≤ 2 then .ok s
  else if s.loadedTileVarSizes.getD idx false then .ok s
  else if (s.diskTileVarSizes.getD idx []).length = 0 then
    .ok { s with loadedTileVarSizes := s.loadedTileVarSizes.set idx true }
  else if s.memAvailable < (s.diskTileVarSizes.getD idx []).length * 8 then
    .error "Cannot load tile var sizes; Insufficient memory budget"
  else
    .ok { s with
      tileVarSizes := s.tileVarSizes.set idx (s.diskTileVarSizes.getD idx [])
      loadedTileVarSizes := s.loadedTileVarSizes.set idx true
      memAvailable := s.memAvailable - (s.diskTileVarSizes.getD idx []).length * 8
      memTaken := s.memTaken + (s.diskTileVarSizes.getD idx []).length * 8 }

/-- `FragmentMetadata::load_tile_validity_offsets(key, idx)` (version
guard `≤ 6`). -/
def FMState.load_tile_validity_offsets (s : FMState) (idx : Nat) :
    Except String FMState :=
  if s.version ≤ 6 then .ok s
  else if s.loadedTileValidityOffsets.getD idx false then .ok s
  else if (s.diskTileValidityOffsets.getD idx []).length = 0 then
    .ok { s with loadedTileValidityOffsets := s.loadedTileValidityOffsets.set idx true }
  else if s.memAvailable < (s.diskTileValidityOffsets.getD idx []).length * 8 then
    .error "Cannot load tile validity offsets; Insufficient memory budget"
  else
    .ok { s with
      tileValidityOffsets :=
        s.tileValidityOffsets.set idx (s.diskTileValidityOffsets.getD idx [])
      loadedTileValidityOffsets := s.loadedTileValidityOffsets.set idx true
      memAvailable := s.memAvailable - (s.diskTileValidityOffsets.getD idx []).length * 8
      memTaken := s.memTaken + (s.diskTileValidityOffsets.getD idx []).length * 8 }

/-- `FragmentMetadata::load_rtree` (version guard `≤ 2`): the memory
charge is the serialized tile size; `RTree::deserialize` (rtree.cc,
outside the excerpt) is a pure function of the tile bytes, written here
as the identity on the abstract leaf data. -/
def FMState.load_rtree (s : FMState) : Except String FMState :=
  if s.version ≤ 2 then .ok s
  else if s.loadedRtree then .ok s
  else if s.memAvailable < s.diskRtree.length then
    .error "Cannot load R-tree; Insufficient memory budget"
  else
    .ok { s with
      rtreeLeaves := s.diskRtree
      rtreeBytes := s.diskRtree.length
      loadedRtree := true
      memAvailable := s.memAvailable - s.diskRtree.length
      memTaken := s.memTaken + s.diskRtree.length }

/-- The state of a `FragmentMetadata` right after its footer is loaded:
every per-field vector sized to `numFields`, every lazy section empty
with its flag down, a fresh tracker with budget `budget`, and the
given immutable on-disk section payloads. -/
def freshFMState (numFields version budget : Nat) (dRt : List Nat)
    (dOff dVarOff dValOff dVarSz : List (List Nat)) : FMState :=
  { version := version, tileNum := 0
    tileOffsets := List.replicate numFields []
    tileVarOffsets := List.replicate numFields []
    tileValidityOffsets := List.replicate numFields []
    tileVarSizes := List.replicate numFields []
    tileMinBuffer := List.replicate numFields []
    tileMaxBuffer := List.replicate numFields []
    tileSums := List.replicate numFields []
    tileNullCounts := List.replicate numFields []
    fragmentMins := List.replicate numFields []
    fragmentMaxs := List.replicate numFields []
    fragmentSums := List.replicate numFields 0
    fragmentNullCounts := List.replicate numFields 0
    rtreeLeaves := [], rtreeBytes := 0
    fileSizes := List.replicate numFields 0
    fileVarSizes := List.replicate numFields 0
    fileValiditySizes := List.replicate numFields 0
    loadedTileOffsets := List.replicate numFields false
    loadedTileVarOffsets := List.replicate numFields false
    loadedTileValidityOffsets := List.replicate numFields false
    loadedTileVarSizes := List.replicate numFields false
    loadedTileMin := List.replicate numFields false
    loadedTileMax := List.replicate numFields false
    loadedTileSum := List.replicate numFields false
    loadedTileNullCount := List.replicate numFields false
    loadedRtree := false, loadedFragmentMinMaxSumNullCount := false
    loadedFooter := true
    varSize := List.replicate numFields false
    isNullable := List.replicate numFields false
    hasMinMaxMetadata := List.replicate numFields false
    hasSumMetadata := List.replicate numFields false
    cellSize := List.replicate numFields 1
    memAvailable := budget, memTaken := 0, memReleased := 0
    diskRtree := dRt
    diskTileOffsets := dOff, diskTileVarOffsets := dVarOff
    diskTileValidityOffsets := dValOff, diskTileVarSizes := dVarSz }

theorem getD_replicate {α : Type} (n i : Nat) (a : α) :
    (List.replicate n a).getD i a = a := by
  induction n generalizing i with
  | zero => simp [List.getD]
  | succ m ih =>
      cases i with
      | zero => simp [List.replicate_succ]
      | succ j => simpa [List.replicate_succ] using ih j

theorem getD_map_const {α β : Type} (l : List α) (i : Nat) (c : β) :
    (l.map (fun _ => c)).getD i c = c := by
  induction l generalizing i with
  | nil => simp [List.getD]
  | cons a l ih =>
      cases i with
      | zero => simp
      | succ j => simpa using ih j

theorem sum_map_len_set_replicate (m idx : Nat) (data : List Nat) (h : idx < m) :
    ((((List.replicate m ([] : List Nat)).set idx data).map
      (fun l => l.length * 8))).sum = data.length * 8 := by
  induction m generalizing idx with
  | zero => omega
  | succ m ih =>
      cases idx with
      | zero =>
          simp [List.replicate_succ, List.map_replicate, List.sum_replicate]
      | succ j =>
          simp only [List.replicate_succ, List.set_cons_succ, List.map_cons,
            List.sum_cons, List.length_nil, Nat.zero_mul, Nat.zero_add]
          exact ih j (by omega)


theorem load_tile_offsets_ok (s : FMState) (idx : Nat)
    (hv : ¬s.version ≤ 2)
    (hflag : s.loadedTileOffsets.getD idx false = false)
    (hne : (s.diskTileOffsets.getD idx []).length ≠ 0)
    (hmem : ¬s.memAvailable < (s.diskTileOffsets.getD idx []).length * 8) :
    s.load_tile_offsets idx = .ok { s with
      tileOffsets := s.tileOffsets.set idx (s.diskTileOffsets.getD idx [])
      loadedTileOffsets := s.loadedTileOffsets.set idx true
      memAvailable := s.memAvailable - (s.diskTileOffsets.getD idx []).length * 8
      memTaken := s.memTaken + (s.diskTileOffsets.getD idx []).length * 8 } := by
  unfold FMState.load_tile_offsets
  rw [if_neg hv,
    if_neg (by simp only [List.getD, List.get?_eq_getElem?] at hflag; simp [hflag]),
    if_neg hne, if_neg hmem]

theorem load_tile_var_offsets_ok (s : FMState) (idx : Nat)
    (hv : ¬s.version ≤ 2)
    (hflag : s.loadedTileVarOffsets.getD idx false = false)
    (hne : (s.diskTileVarOffsets.getD idx []).length ≠ 0)
    (hmem : ¬s.memAvailable < (s.diskTileVarOffsets.getD idx []).length * 8) :
    s.load_tile_var_offsets idx = .ok { s with
      tileVarOffsets := s.tileVarOffsets.set idx (s.diskTileVarOffsets.getD idx [])
      loadedTileVarOffsets := s.loadedTileVarOffsets.set idx true
      memAvailable := s.memAvailable - (s.diskTileVarOffsets.getD idx []).length * 8
      memTaken := s.memTaken + (s.diskTileVarOffsets.getD idx []).length * 8 } := by
  unfold FMState.load_tile_var_offsets
  rw [if_neg hv,
    if_neg (by simp only [List.getD, List.get?_eq_getElem?] at hflag; simp [hflag]),
    if_neg hne, if_neg hmem]

theorem load_tile_var_sizes_ok (s : FMState) (idx : Nat)
    (hv : ¬s.version ≤ 2)
    (hflag : s.loadedTileVarSizes.getD idx false = false)
    (hne : (s.diskTileVarSizes.getD idx []).length ≠ 0)
    (hmem : ¬s.memAvailable < (s.diskTileVarSizes.getD idx []).length * 8) :
    s.load_tile_var_sizes idx = .ok { s with
      tileVarSizes := s.tileVarSizes.set idx (s.diskTileVarSizes.getD idx [])
      loadedTileVarSizes := s.loadedTileVarSizes.set idx true
      memAvailable := s.memAvailable - (s.diskTileVarSizes.getD idx []).length * 8
      memTaken := s.memTaken + (s.diskTileVarSizes.getD idx []).length * 8 } := by
  unfold FMState.load_tile_var_sizes
  rw [if_neg hv,
    if_neg (by simp only [List.getD, List.get?_eq_getElem?] at hflag; simp [hflag]),
    if_neg hne, if_neg hmem]

theorem load_tile_validity_offsets_ok (s : FMState) (idx : Nat)
    (hv : ¬s.version ≤ 6)
    (hflag : s.loadedTileValidityOffsets.getD idx false = false)
    (hne : (s.diskTileValidityOffsets.getD idx []).length ≠ 0)
    (hmem : ¬s.memAvailable < (s.diskTileValidityOffsets.getD idx []).length * 8) :
    s.load_tile_validity_offsets idx = .ok { s with
      tileValidityOffsets := s.tileValidityOffsets.set idx (s.diskTileValidityOffsets.getD idx [])
      loadedTileValidityOffsets := s.loadedTileValidityOffsets.set idx true
      memAvailable := s.memAvailable - (s.diskTileValidityOffsets.getD idx []).length * 8
      memTaken := s.memTaken + (s.diskTileValidityOffsets.getD idx []).length * 8 } := by
  unfold FMState.load_tile_validity_offsets
  rw [if_neg hv,
    if_neg (by simp only [List.getD, List.get?_eq_getElem?] at hflag; simp [hflag]),
    if_neg hne, if_neg hmem]

theorem getD_set_self {α : Type} (l : List α) (i : Nat) (a d : α) (h : i < l.length) :
    (l.set i a).getD i d = a := by
  simp [List.getD, List.get?_eq_getElem?, List.getElem?_set_self h]

theorem sum_map_len_replicate_nil (n : Nat) :
    ((List.replicate n ([] : List Nat)).map (fun l => l.length * 8)).sum = 0 := by
  simp [List.map_replicate, List.sum_replicate]

theorem map_const_nil_len_sum (l : List (List Nat)) :
    ((l.map (fun _ => ([] : List Nat))).map (fun l => l.length * 8)).sum = 0 := by
  simp [List.map_map, Function.comp, List.map_const, List.sum_replicate]

/-- `free_tile_offsets` written as one record update (straight
unfolding of the five loops). -/
theorem free_tile_offsets_eq (s : FMState) : s.free_tile_offsets = { s with
    tileOffsets := (s.tileOffsets.map (fun _ => ([] : List Nat))).map
      (fun _ => ([] : List Nat))
    loadedTileOffsets := (s.loadedTileOffsets.map (fun _ => false)).map
      (fun _ => false)
    tileVarOffsets := s.tileVarOffsets.map (fun _ => ([] : List Nat))
    loadedTileVarOffsets := s.loadedTileVarOffsets.map (fun _ => false)
    tileValidityOffsets := s.tileValidityOffsets.map (fun _ => ([] : List Nat))
    loadedTileValidityOffsets := s.loadedTileValidityOffsets.map (fun _ => false)
    tileVarSizes := s.tileVarSizes.map (fun _ => ([] : List Nat))
    loadedTileVarSizes := s.loadedTileVarSizes.map (fun _ => false)
    memAvailable := s.memAvailable + (s.tileOffsets.map (fun l => l.length * 8)).sum
      + (s.tileVarOffsets.map (fun l => l.length * 8)).sum
      + ((s.tileOffsets.map (fun _ => ([] : List Nat))).map
          (fun l => l.length * 8)).sum
      + (s.tileValidityOffsets.map (fun l => l.length * 8)).sum
      + (s.tileVarSizes.map (fun l => l.length * 8)).sum
    memReleased := s.memReleased + (s.tileOffsets.map (fun l => l.length * 8)).sum
      + (s.tileVarOffsets.map (fun l => l.length * 8)).sum
      + ((s.tileOffsets.map (fun _ => ([] : List Nat))).map
          (fun l => l.length * 8)).sum
      + (s.tileValidityOffsets.map (fun l => l.length * 8)).sum
      + (s.tileVarSizes.map (fun l => l.length * 8)).sum } := rfl

theorem load_rtree_ok (s : FMState)
    (hv : ¬s.version ≤ 2) (hflag : s.loadedRtree = false)
    (hmem : ¬s.memAvailable < s.diskRtree.length) :
    s.load_rtree = .ok { s with
      rtreeLeaves := s.diskRtree
      rtreeBytes := s.diskRtree.length
      loadedRtree := true
      memAvailable := s.memAvailable - s.diskRtree.length
      memTaken := s.memTaken + s.diskRtree.length } := by
  unfold FMState.load_rtree
  rw [if_neg hv, if_neg (by simp [hflag]), if_neg hmem]

/-- C3.  Starting from a freshly-footer-loaded `FragmentMetadata`, for
each lazy section family — fixed tile offsets, var offsets, var sizes,
validity offsets, and the R-tree — `load` then `free` then `load`
succeeds, reproduces exactly the in-memory contents of the first load
(a pure function of the immutable on-disk bytes), and balances the
memory tracker: after `load → free` the bytes taken equal the bytes
released, and after the second load the bytes taken equal the bytes
released plus the charge of a single load. -/
theorem load_free_load_roundtrip (numFields version budget : Nat)
    (dRt : List Nat) (dOff dVarOff dValOff dVarSz : List (List Nat))
    (idx : Nat) (hidx : idx < numFields) (hv : 6 < version)
    (hneOff : (dOff.getD idx []).length ≠ 0)
    (hneVarOff : (dVarOff.getD idx []).length ≠ 0)
    (hneVarSz : (dVarSz.getD idx []).length ≠ 0)
    (hneValOff : (dValOff.getD idx []).length ≠ 0)
    (hbOff : (dOff.getD idx []).length * 8 ≤ budget)
    (hbVarOff : (dVarOff.getD idx []).length * 8 ≤ budget)
    (hbVarSz : (dVarSz.getD idx []).length * 8 ≤ budget)
    (hbValOff : (dValOff.getD idx []).length * 8 ≤ budget)
    (hbRt : dRt.length ≤ budget) :
    (∃ s1 s3 : FMState,
      (freshFMState numFields version budget dRt dOff dVarOff dValOff dVarSz).load_tile_offsets idx = .ok s1 ∧
      s1.free_tile_offsets.load_tile_offsets idx = .ok s3 ∧
      s3.tileOffsets.getD idx [] = s1.tileOffsets.getD idx [] ∧
      s1.tileOffsets.getD idx [] = dOff.getD idx [] ∧
      s1.free_tile_offsets.loadedTileOffsets.getD idx false = false ∧
      s1.free_tile_offsets.memTaken = s1.free_tile_offsets.memReleased ∧
      s3.memTaken = s3.memReleased + (dOff.getD idx []).length * 8) ∧
    (∃ s1 s3 : FMState,
      (freshFMState numFields version budget dRt dOff dVarOff dValOff dVarSz).load_tile_var_offsets idx = .ok s1 ∧
      s1.free_tile_offsets.load_tile_var_offsets idx = .ok s3 ∧
      s3.tileVarOffsets.getD idx [] = s1.tileVarOffsets.getD idx [] ∧
      s1.tileVarOffsets.getD idx [] = dVarOff.getD idx [] ∧
      s1.free_tile_offsets.loadedTileVarOffsets.getD idx false = false ∧
      s1.free_tile_offsets.memTaken = s1.free_tile_offsets.memReleased ∧
      s3.memTaken = s3.memReleased + (dVarOff.getD idx []).length * 8) ∧
    (∃ s1 s3 : FMState,
      (freshFMState numFields version budget dRt dOff dVarOff dValOff dVarSz).load_tile_var_sizes idx = .ok s1 ∧
      s1.free_tile_offsets.load_tile_var_sizes idx = .ok s3 ∧
      s3.tileVarSizes.getD idx [] = s1.tileVarSizes.getD idx [] ∧
      s1.tileVarSizes.getD idx [] = dVarSz.getD idx [] ∧
      s1.free_tile_offsets.loadedTileVarSizes.getD idx false = false ∧
      s1.free_tile_offsets.memTaken = s1.free_tile_offsets.memReleased ∧
      s3.memTaken = s3.memReleased + (dVarSz.getD idx []).length * 8) ∧
    (∃ s1 s3 : FMState,
      (freshFMState numFields version budget dRt dOff dVarOff dValOff dVarSz).load_tile_validity_offsets idx = .ok s1 ∧
      s1.free_tile_offsets.load_tile_validity_offsets idx = .ok s3 ∧
      s3.tileValidityOffsets.getD idx [] = s1.tileValidityOffsets.getD idx [] ∧
      s1.tileValidityOffsets.getD idx [] = dValOff.getD idx [] ∧
      s1.free_tile_offsets.loadedTileValidityOffsets.getD idx false = false ∧
      s1.free_tile_offsets.memTaken = s1.free_tile_offsets.memReleased ∧
      s3.memTaken = s3.memReleased + (dValOff.getD idx []).length * 8) ∧
    (∃ s1 s3 : FMState,
      (freshFMState numFields version budget dRt dOff dVarOff dValOff dVarSz).load_rtree = .ok s1 ∧
      s1.free_rtree.load_rtree = .ok s3 ∧
      s3.rtreeLeaves = s1.rtreeLeaves ∧
      s1.rtreeLeaves = dRt ∧
      s1.free_rtree.loadedRtree = false ∧
      s1.free_rtree.memTaken = s1.free_rtree.memReleased ∧
      s3.memTaken = s3.memReleased + dRt.length) := by
  refine ⟨?_, ?_, ?_, ?_, ?_⟩
  · refine ⟨_, _, load_tile_offsets_ok _ idx ?_ ?_ ?_ ?_, load_tile_offsets_ok _ idx ?_ ?_ ?_ ?_,
      ?_, ?_, ?_, ?_, ?_⟩
    · show ¬(version ≤ 2)
      omega
    · show (List.replicate numFields false).getD idx false = false
      exact getD_replicate _ _ _
    · exact hneOff
    · show ¬(budget < (dOff.getD idx []).length * 8)
      omega
    · show ¬(version ≤ 2)
      omega
    · show ((((List.replicate numFields false).set idx true).map (fun _ => false)).map (fun _ => false)).getD idx false = false
      exact getD_map_const _ _ _
    · exact hneOff
    · show ¬(budget - (dOff.getD idx []).length * 8
        + (((List.replicate numFields ([] : List Nat)).set idx (dOff.getD idx [])).map (fun l => l.length * 8)).sum
        + ((List.replicate numFields ([] : List Nat)).map (fun l => l.length * 8)).sum
        + ((((List.replicate numFields ([] : List Nat)).set idx (dOff.getD idx [])).map (fun _ => ([] : List Nat))).map (fun l => l.length * 8)).sum
        + ((List.replicate numFields ([] : List Nat)).map (fun l => l.length * 8)).sum
        + ((List.replicate numFields ([] : List Nat)).map (fun l => l.length * 8)).sum
        < (dOff.getD idx []).length * 8)
      simp only [sum_map_len_set_replicate _ _ _ hidx, sum_map_len_replicate_nil,
        map_const_nil_len_sum] <;> omega
    · show (((((List.replicate numFields ([] : List Nat)).set idx (dOff.getD idx [])).map (fun _ => ([] : List Nat))).map (fun _ => ([] : List Nat))).set idx (dOff.getD idx [])).getD idx [] = (((List.replicate numFields ([] : List Nat)).set idx (dOff.getD idx []))).getD idx []
      rw [getD_set_self _ _ _ _ (by simpa using hidx),
        getD_set_self _ _ _ _ (by simpa using hidx)]
    · show (((List.replicate numFields ([] : List Nat)).set idx (dOff.getD idx []))).getD idx [] = (dOff.getD idx [])
      rw [getD_set_self _ _ _ _ (by simpa using hidx)]
    · show ((((List.replicate numFields false).set idx true).map (fun _ => false)).map (fun _ => false)).getD idx false = false
      exact getD_map_const _ _ _
    · show 0 + (dOff.getD idx []).length * 8 =
        0
        + (((List.replicate numFields ([] : List Nat)).set idx (dOff.getD idx [])).map (fun l => l.length * 8)).sum
        + ((List.replicate numFields ([] : List Nat)).map (fun l => l.length * 8)).sum
        + ((((List.replicate numFields ([] : List Nat)).set idx (dOff.getD idx [])).map (fun _ => ([] : List Nat))).map (fun l => l.length * 8)).sum
        + ((List.replicate numFields ([] : List Nat)).map (fun l => l.length * 8)).sum
        + ((List.replicate numFields ([] : List Nat)).map (fun l => l.length * 8)).sum
      simp only [sum_map_len_set_replicate _ _ _ hidx, sum_map_len_replicate_nil,
        map_const_nil_len_sum] <;> omega
    · show 0 + (dOff.getD idx []).length * 8 + (dOff.getD idx []).length * 8 =
        (0
        + (((List.replicate numFields ([] : List Nat)).set idx (dOff.getD idx [])).map (fun l => l.length * 8)).sum
        + ((List.replicate numFields ([] : List Nat)).map (fun l => l.length * 8)).sum
        + ((((List.replicate numFields ([] : List Nat)).set idx (dOff.getD idx [])).map (fun _ => ([] : List Nat))).map (fun l => l.length * 8)).sum
        + ((List.replicate numFields ([] : List Nat)).map (fun l => l.length * 8)).sum
        + ((List.replicate numFields ([] : List Nat)).map (fun l => l.length * 8)).sum)
        + (dOff.getD idx []).length * 8
      simp only [sum_map_len_set_replicate _ _ _ hidx, sum_map_len_replicate_nil,
        map_const_nil_len_sum] <;> omega
  · refine ⟨_, _, load_tile_var_offsets_ok _ idx ?_ ?_ ?_ ?_, load_tile_var_offsets_ok _ idx ?_ ?_ ?_ ?_,
      ?_, ?_, ?_, ?_, ?_⟩
    · show ¬(version ≤ 2)
      omega
    · show (List.replicate numFields false).getD idx false = false
      exact getD_replicate _ _ _
    · exact hneVarOff
    · show ¬(budget < (dVarOff.getD idx []).length * 8)
      omega
    · show ¬(version ≤ 2)
      omega
    · show (((List.replicate numFields false).set idx true).map (fun _ => false)).getD idx false = false
      exact getD_map_const _ _ _
    · exact hneVarOff
    · show ¬(budget - (dVarOff.getD idx []).length * 8
        + ((List.replicate numFields ([] : List Nat)).map (fun l => l.length * 8)).sum
        + (((List.replicate numFields ([] : List Nat)).set idx (dVarOff.getD idx [])).map (fun l => l.length * 8)).sum
        + (((List.replicate numFields ([] : List Nat)).map (fun _ => ([] : List Nat))).map (fun l => l.length * 8)).sum
        + ((List.replicate numFields ([] : List Nat)).map (fun l => l.length * 8)).sum
        + ((List.replicate numFields ([] : List Nat)).map (fun l => l.length * 8)).sum
        < (dVarOff.getD idx []).length * 8)
      simp only [sum_map_len_set_replicate _ _ _ hidx, sum_map_len_replicate_nil,
        map_const_nil_len_sum] <;> omega
    · show ((((List.replicate numFields ([] : List Nat)).set idx (dVarOff.getD idx [])).map (fun _ => ([] : List Nat))).set idx (dVarOff.getD idx [])).getD idx [] = (((List.replicate numFields ([] : List Nat)).set idx (dVarOff.getD idx []))).getD idx []
      rw [getD_set_self _ _ _ _ (by simpa using hidx),
        getD_set_self _ _ _ _ (by simpa using hidx)]
    · show (((List.replicate numFields ([] : List Nat)).set idx (dVarOff.getD idx []))).getD idx [] = (dVarOff.getD idx [])
      rw [getD_set_self _ _ _ _ (by simpa using hidx)]
    · show (((List.replicate numFields false).set idx true).map (fun _ => false)).getD idx false = false
      exact getD_map_const _ _ _
    · show 0 + (dVarOff.getD idx []).length * 8 =
        0
        + ((List.replicate numFields ([] : List Nat)).map (fun l => l.length * 8)).sum
        + (((List.replicate numFields ([] : List Nat)).set idx (dVarOff.getD idx [])).map (fun l => l.length * 8)).sum
        + (((List.replicate numFields ([] : List Nat)).map (fun _ => ([] : List Nat))).map (fun l => l.length * 8)).sum
        + ((List.replicate numFields ([] : List Nat)).map (fun l => l.length * 8)).sum
        + ((List.replicate numFields ([] : List Nat)).map (fun l => l.length * 8)).sum
      simp only [sum_map_len_set_replicate _ _ _ hidx, sum_map_len_replicate_nil,
        map_const_nil_len_sum] <;> omega
    · show 0 + (dVarOff.getD idx []).length * 8 + (dVarOff.getD idx []).length * 8 =
        (0
        + ((List.replicate numFields ([] : List Nat)).map (fun l => l.length * 8)).sum
        + (((List.replicate numFields ([] : List Nat)).set idx (dVarOff.getD idx [])).map (fun l => l.length * 8)).sum
        + (((List.replicate numFields ([] : List Nat)).map (fun _ => ([] : List Nat))).map (fun l => l.length * 8)).sum
        + ((List.replicate numFields ([] : List Nat)).map (fun l => l.length * 8)).sum
        + ((List.replicate numFields ([] : List Nat)).map (fun l => l.length * 8)).sum)
        + (dVarOff.getD idx []).length * 8
      simp only [sum_map_len_set_replicate _ _ _ hidx, sum_map_len_replicate_nil,
        map_const_nil_len_sum] <;> omega
  · refine ⟨_, _, load_tile_var_sizes_ok _ idx ?_ ?_ ?_ ?_, load_tile_var_sizes_ok _ idx ?_ ?_ ?_ ?_,
      ?_, ?_, ?_, ?_, ?_⟩
    · show ¬(version ≤ 2)
      omega
    · show (List.replicate numFields false).getD idx false = false
      exact getD_replicate _ _ _
    · exact hneVarSz
    · show ¬(budget < (dVarSz.getD idx []).length * 8)
      omega
    · show ¬(version ≤ 2)
      omega
    · show (((List.replicate numFields false).set idx true).map (fun _ => false)).getD idx false = false
      exact getD_map_const _ _ _
    · exact hneVarSz
    · show ¬(budget - (dVarSz.getD idx []).length * 8
        + ((List.replicate numFields ([] : List Nat)).map (fun l => l.length * 8)).sum
        + ((List.replicate numFields ([] : List Nat)).map (fun l => l.length * 8)).sum
        + (((List.replicate numFields ([] : List Nat)).map (fun _ => ([] : List Nat))).map (fun l => l.length * 8)).sum
        + ((List.replicate numFields ([] : List Nat)).map (fun l => l.length * 8)).sum
        + (((List.replicate numFields ([] : List Nat)).set idx (dVarSz.getD idx [])).map (fun l => l.length * 8)).sum
        < (dVarSz.getD idx []).length * 8)
      simp only [sum_map_len_set_replicate _ _ _ hidx, sum_map_len_replicate_nil,
        map_const_nil_len_sum] <;> omega
    · show ((((List.replicate numFields ([] : List Nat)).set idx (dVarSz.getD idx [])).map (fun _ => ([] : List Nat))).set idx (dVarSz.getD idx [])).getD idx [] = (((List.replicate numFields ([] : List Nat)).set idx (dVarSz.getD idx []))).getD idx []
      rw [getD_set_self _ _ _ _ (by simpa using hidx),
        getD_set_self _ _ _ _ (by simpa using hidx)]
    · show (((List.replicate numFields ([] : List Nat)).set idx (dVarSz.getD idx []))).getD idx [] = (dVarSz.getD idx [])
      rw [getD_set_self _ _ _ _ (by simpa using hidx)]
    · show (((List.replicate numFields false).set idx true).map (fun _ => false)).getD idx false = false
      exact getD_map_const _ _ _
    · show 0 + (dVarSz.getD idx []).length * 8 =
        0
        + ((List.replicate numFields ([] : List Nat)).map (fun l => l.length * 8)).sum
        + ((List.replicate numFields ([] : List Nat)).map (fun l => l.length * 8)).sum
        + (((List.replicate numFields ([] : List Nat)).map (fun _ => ([] : List Nat))).map (fun l => l.length * 8)).sum
        + ((List.replicate numFields ([] : List Nat)).map (fun l => l.length * 8)).sum
        + (((List.replicate numFields ([] : List Nat)).set idx (dVarSz.getD idx [])).map (fun l => l.length * 8)).sum
      simp only [sum_map_len_set_replicate _ _ _ hidx, sum_map_len_replicate_nil,
        map_const_nil_len_sum] <;> omega
    · show 0 + (dVarSz.getD idx []).length * 8 + (dVarSz.getD idx []).length * 8 =
        (0
        + ((List.replicate numFields ([] : List Nat)).map (fun l => l.length * 8)).sum
        + ((List.replicate numFields ([] : List Nat)).map (fun l => l.length * 8)).sum
        + (((List.replicate numFields ([] : List Nat)).map (fun _ => ([] : List Nat))).map (fun l => l.length * 8)).sum
        + ((List.replicate numFields ([] : List Nat)).map (fun l => l.length * 8)).sum
        + (((List.replicate numFields ([] : List Nat)).set idx (dVarSz.getD idx [])).map (fun l => l.length * 8)).sum)
        + (dVarSz.getD idx []).length * 8
      simp only [sum_map_len_set_replicate _ _ _ hidx, sum_map_len_replicate_nil,
        map_const_nil_len_sum] <;> omega
  · refine ⟨_, _, load_tile_validity_offsets_ok _ idx ?_ ?_ ?_ ?_, load_tile_validity_offsets_ok _ idx ?_ ?_ ?_ ?_,
      ?_, ?_, ?_, ?_, ?_⟩
    · show ¬(version ≤ 6)
      omega
    · show (List.replicate numFields false).getD idx false = false
      exact getD_replicate _ _ _
    · exact hneValOff
    · show ¬(budget < (dValOff.getD idx []).length * 8)
      omega
    · show ¬(version ≤ 6)
      omega
    · show (((List.replicate numFields false).set idx true).map (fun _ => false)).getD idx false = false
      exact getD_map_const _ _ _
    · exact hneValOff
    · show ¬(budget - (dValOff.getD idx []).length * 8
        + ((List.replicate numFields ([] : List Nat)).map (fun l => l.length * 8)).sum
        + ((List.replicate numFields ([] : List Nat)).map (fun l => l.length * 8)).sum
        + (((List.replicate numFields ([] : List Nat)).map (fun _ => ([] : List Nat))).map (fun l => l.length * 8)).sum
        + (((List.replicate numFields ([] : List Nat)).set idx (dValOff.getD idx [])).map (fun l => l.length * 8)).sum
        + ((List.replicate numFields ([] : List Nat)).map (fun l => l.length * 8)).sum
        < (dValOff.getD idx []).length * 8)
      simp only [sum_map_len_set_replicate _ _ _ hidx, sum_map_len_replicate_nil,
        map_const_nil_len_sum] <;> omega
    · show ((((List.replicate numFields ([] : List Nat)).set idx (dValOff.getD idx [])).map (fun _ => ([] : List Nat))).set idx (dValOff.getD idx [])).getD idx [] = (((List.replicate numFields ([] : List Nat)).set idx (dValOff.getD idx []))).getD idx []
      rw [getD_set_self _ _ _ _ (by simpa using hidx),
        getD_set_self _ _ _ _ (by simpa using hidx)]
    · show (((List.replicate numFields ([] : List Nat)).set idx (dValOff.getD idx []))).getD idx [] = (dValOff.getD idx [])
      rw [getD_set_self _ _ _ _ (by simpa using hidx)]
    · show (((List.replicate numFields false).set idx true).map (fun _ => false)).getD idx false = false
      exact getD_map_const _ _ _
    · show 0 + (dValOff.getD idx []).length * 8 =
        0
        + ((List.replicate numFields ([] : List Nat)).map (fun l => l.length * 8)).sum
        + ((List.replicate numFields ([] : List Nat)).map (fun l => l.length * 8)).sum
        + (((List.replicate numFields ([] : List Nat)).map (fun _ => ([] : List Nat))).map (fun l => l.length * 8)).sum
        + (((List.replicate numFields ([] : List Nat)).set idx (dValOff.getD idx [])).map (fun l => l.length * 8)).sum
        + ((List.replicate numFields ([] : List Nat)).map (fun l => l.length * 8)).sum
      simp only [sum_map_len_set_replicate _ _ _ hidx, sum_map_len_replicate_nil,
        map_const_nil_len_sum] <;> omega
    · show 0 + (dValOff.getD idx []).length * 8 + (dValOff.getD idx []).length * 8 =
        (0
        + ((List.replicate numFields ([] : List Nat)).map (fun l => l.length * 8)).sum
        + ((List.replicate numFields ([] : List Nat)).map (fun l => l.length * 8)).sum
        + (((List.replicate numFields ([] : List Nat)).map (fun _ => ([] : List Nat))).map (fun l => l.length * 8)).sum
        + (((List.replicate numFields ([] : List Nat)).set idx (dValOff.getD idx [])).map (fun l => l.length * 8)).sum
        + ((List.replicate numFields ([] : List Nat)).map (fun l => l.length * 8)).sum)
        + (dValOff.getD idx []).length * 8
      simp only [sum_map_len_set_replicate _ _ _ hidx, sum_map_len_replicate_nil,
        map_const_nil_len_sum] <;> omega
  · refine ⟨_, _, load_rtree_ok _ ?_ ?_ ?_, load_rtree_ok _ ?_ ?_ ?_,
      ?_, ?_, ?_, ?_, ?_⟩
    · show ¬(version ≤ 2)
      omega
    · rfl
    · show ¬(budget < dRt.length)
      omega
    · show ¬(version ≤ 2)
      omega
    · rfl
    · show ¬(budget - dRt.length + dRt.length < dRt.length)
      omega
    · rfl
    · rfl
    · rfl
    · show 0 + dRt.length = 0 + dRt.length
      rfl
    · show 0 + dRt.length + dRt.length = 0 + dRt.length + dRt.length
      rfl

/-- C3 witness: one field, version 10, budget 100, concrete disk
payloads for all five sections. -/
theorem load_free_load_roundtrip_witness :
    (0 < 1 ∧ 6 < 10 ∧
      (([[3, 4]] : List (List Nat)).getD 0 []).length ≠ 0 ∧
      (([[5]] : List (List Nat)).getD 0 []).length ≠ 0 ∧
      (([[7, 8, 9]] : List (List Nat)).getD 0 []).length ≠ 0 ∧
      (([[6]] : List (List Nat)).getD 0 []).length ≠ 0 ∧
      (([[3, 4]] : List (List Nat)).getD 0 []).length * 8 ≤ 100 ∧
      (([[5]] : List (List Nat)).getD 0 []).length * 8 ≤ 100 ∧
      (([[7, 8, 9]] : List (List Nat)).getD 0 []).length * 8 ≤ 100 ∧
      (([[6]] : List (List Nat)).getD 0 []).length * 8 ≤ 100 ∧
      ([1, 2] : List Nat).length ≤ 100) ∧
    (∃ s1 s3 : FMState,
      (freshFMState 1 10 100 [1, 2] [[3, 4]] [[5]] [[6]] [[7, 8, 9]]).load_tile_offsets 0 = .ok s1 ∧
      s1.free_tile_offsets.load_tile_offsets 0 = .ok s3 ∧
      s3.tileOffsets.getD 0 [] = s1.tileOffsets.getD 0 [] ∧
      s1.tileOffsets.getD 0 [] = ([[3, 4]] : List (List Nat)).getD 0 [] ∧
      s1.free_tile_offsets.loadedTileOffsets.getD 0 false = false ∧
      s1.free_tile_offsets.memTaken = s1.free_tile_offsets.memReleased ∧
      s3.memTaken = s3.memReleased + (([[3, 4]] : List (List Nat)).getD 0 []).length * 8) ∧
    (∃ s1 s3 : FMState,
      (freshFMState 1 10 100 [1, 2] [[3, 4]] [[5]] [[6]] [[7, 8, 9]]).load_tile_var_offsets 0 = .ok s1 ∧
      s1.free_tile_offsets.load_tile_var_offsets 0 = .ok s3 ∧
      s3.tileVarOffsets.getD 0 [] = s1.tileVarOffsets.getD 0 [] ∧
      s1.tileVarOffsets.getD 0 [] = ([[5]] : List (List Nat)).getD 0 [] ∧
      s1.free_tile_offsets.loadedTileVarOffsets.getD 0 false = false ∧
      s1.free_tile_offsets.memTaken = s1.free_tile_offsets.memReleased ∧
      s3.memTaken = s3.memReleased + (([[5]] : List (List Nat)).getD 0 []).length * 8) ∧
    (∃ s1 s3 : FMState,
      (freshFMState 1 10 100 [1, 2] [[3, 4]] [[5]] [[6]] [[7, 8, 9]]).load_tile_var_sizes 0 = .ok s1 ∧
      s1.free_tile_offsets.load_tile_var_sizes 0 = .ok s3 ∧
      s3.tileVarSizes.getD 0 [] = s1.tileVarSizes.getD 0 [] ∧
      s1.tileVarSizes.getD 0 [] = ([[7, 8, 9]] : List (List Nat)).getD 0 [] ∧
      s1.free_tile_offsets.loadedTileVarSizes.getD 0 false = false ∧
      s1.free_tile_offsets.memTaken = s1.free_tile_offsets.memReleased ∧
      s3.memTaken = s3.memReleased + (([[7, 8, 9]] : List (List Nat)).getD 0 []).length * 8) ∧
    (∃ s1 s3 : FMState,
      (freshFMState 1 10 100 [1, 2] [[3, 4]] [[5]] [[6]] [[7, 8, 9]]).load_tile_validity_offsets 0 = .ok s1 ∧
      s1.free_tile_offsets.load_tile_validity_offsets 0 = .ok s3 ∧
      s3.tileValidityOffsets.getD 0 [] = s1.tileValidityOffsets.getD 0 [] ∧
      s1.tileValidityOffsets.getD 0 [] = ([[6]] : List (List Nat)).getD 0 [] ∧
      s1.free_tile_offsets.loadedTileValidityOffsets.getD 0 false = false ∧
      s1.free_tile_offsets.memTaken = s1.free_tile_offsets.memReleased ∧
      s3.memTaken = s3.memReleased + (([[6]] : List (List Nat)).getD 0 []).length * 8) ∧
    (∃ s1 s3 : FMState,
      (freshFMState 1 10 100 [1, 2] [[3, 4]] [[5]] [[6]] [[7, 8, 9]]).load_rtree = .ok s1 ∧
      s1.free_rtree.load_rtree = .ok s3 ∧
      s3.rtreeLeaves = s1.rtreeLeaves ∧
      s1.rtreeLeaves = [1, 2] ∧
      s1.free_rtree.loadedRtree = false ∧
      s1.free_rtree.memTaken = s1.free_rtree.memReleased ∧
      s3.memTaken = s3.memReleased + ([1, 2] : List Nat).length) :=
  ⟨⟨by decide, by decide, by decide, by decide, by decide, by decide, by decide,
    by decide, by decide, by decide, by decide⟩,
    load_free_load_roundtrip 1 10 100 [1, 2] [[3, 4]] [[5]] [[6]] [[7, 8, 9]] 0
      (by decide) (by decide) (by decide) (by decide) (by decide) (by decide)
      (by decide) (by decide) (by decide) (by decide) (by decide)⟩
